import Mathlib

/-!
Verification development for the ticket lifecycle and persistence engine of
the DSAV repository (`src/s.js`).  The JavaScript source is shallowly
embedded: ticket records become a Lean structure, the `activeTickets`
JavaScript `Map` becomes an association list with JS `Map` get/set/delete
semantics, the asynchronous save queue becomes an explicit transition
system, and timestamps (JS `Date` values) become natural numbers counting
milliseconds since the Unix epoch.
-/

/-- TicketRecord mirrors the in-memory ticket objects stored in the
`activeTickets` map of `src/s.js`.  Optional fields model JS fields that
may be absent (`undefined`); `closed` is `Option Bool` because a freshly
created ticket has no `closed` key at all, while `closeTicketConfirmed`
and `reopenTicket` later store explicit booleans.  `formData` is the
opaque structured payload captured from the originating form. -/
structure TicketRecord where
  channelId : String
  userId : String
  category : String
  createdAt : Option Nat
  closed : Option Bool
  closedAt : Option Nat
  closedBy : Option String
  reopenedAt : Option Nat
  reopenedBy : Option String
  manuallyRegistered : Option Bool
  formData : Option String
deriving DecidableEq, Repr

/-- JS truthiness of the `closed` field, as used by `!ticket.closed` in the
quota filters of `createTicket`/`createTicketWithFormData`. -/
def TicketRecord.isClosed (t : TicketRecord) : Bool :=
  t.closed.getD false

/-- StoredTicket is the serialized (JSON) form of a record as written by
`processNextSave` via `JSON.stringify`: `Date` fields are rendered as ISO
strings (through `Date.prototype.toJSON`), all other fields pass through.
Any field may be absent in a hand-made persistence file, which
`loadActiveTickets` must tolerate. -/
structure StoredTicket where
  channelId : Option String
  userId : String
  category : String
  createdAt : Option String
  closed : Option Bool
  closedAt : Option String
  closedBy : Option String
  reopenedAt : Option String
  reopenedBy : Option String
  manuallyRegistered : Option Bool
  formData : Option String
deriving DecidableEq, Repr

/-- The ticket registry: an association list embedding the JS `Map`
from channel id to ticket record, in insertion order. -/
abbrev TicketMap := List (String × TicketRecord)

/-- JS `Map.prototype.get`: first entry with the given key. -/
def mapGet : TicketMap → String → Option TicketRecord
  | [], _ => none
  | (k, v) :: rest, key => if k = key then some v else mapGet rest key

/-- JS `Map.prototype.has`. -/
def mapHas (m : TicketMap) (key : String) : Bool :=
  (mapGet m key).isSome

/-- JS `Map.prototype.set`: replace the value in place if the key exists,
otherwise append a new entry at the end. -/
def mapSet : TicketMap → String → TicketRecord → TicketMap
  | [], k, v => [(k, v)]
  | (k0, v0) :: rest, k, v =>
      if k0 = k then (k0, v) :: rest else (k0, v0) :: mapSet rest k v

/-- JS `Map.prototype.delete`: remove the entry with the given key. -/
def mapDelete : TicketMap → String → TicketMap
  | [], _ => []
  | (k0, v0) :: rest, k =>
      if k0 = k then rest else (k0, v0) :: mapDelete rest k

/-- Keys of the registry are pairwise distinct — the guarantee a JS `Map`
provides by construction. -/
def NodupKeys (m : TicketMap) : Prop :=
  (m.map Prod.fst).Nodup

theorem mapGet_mapSet_self (m : TicketMap) (k : String) (v : TicketRecord) :
    mapGet (mapSet m k v) k = some v := by
  induction m with
  | nil => simp [mapSet, mapGet]
  | cons p rest ih =>
      obtain ⟨k0, v0⟩ := p
      by_cases h : k0 = k
      · simp [mapSet, mapGet, h]
      · simp [mapSet, mapGet, h, ih]

theorem mapGet_mapSet_ne (m : TicketMap) (k k' : String) (v : TicketRecord)
    (h : k ≠ k') : mapGet (mapSet m k v) k' = mapGet m k' := by
  induction m with
  | nil => simp [mapSet, mapGet, h]
  | cons p rest ih =>
      obtain ⟨k0, v0⟩ := p
      by_cases h0 : k0 = k
      · subst h0
        simp [mapSet, mapGet, h]
      · simp [mapSet, mapGet, h0, ih]

theorem mapGet_mem (m : TicketMap) (k : String) (v : TicketRecord)
    (h : mapGet m k = some v) : (k, v) ∈ m := by
  induction m with
  | nil => simp [mapGet] at h
  | cons p rest ih =>
      obtain ⟨k0, v0⟩ := p
      by_cases h0 : k0 = k
      · subst h0
        simp [mapGet] at h
        simp [h]
      · simp [mapGet, h0] at h
        exact List.mem_cons_of_mem _ (ih h)

theorem mapGet_eq_none_of_not_mem (m : TicketMap) (k : String)
    (h : k ∉ m.map Prod.fst) : mapGet m k = none := by
  induction m with
  | nil => simp [mapGet]
  | cons p rest ih =>
      obtain ⟨k0, v0⟩ := p
      have hne : k0 ≠ k := by
        intro he
        exact h (by simp [he])
      simp only [mapGet, if_neg hne]
      exact ih (fun hm => h (by simp [hm]))

theorem mapGet_mapDelete_self (m : TicketMap) (k : String)
    (hnd : NodupKeys m) : mapGet (mapDelete m k) k = none := by
  induction m with
  | nil => simp [mapDelete, mapGet]
  | cons p rest ih =>
      obtain ⟨k0, v0⟩ := p
      have hnd0 : k0 ∉ rest.map Prod.fst ∧ NodupKeys rest := by
        simpa [NodupKeys] using hnd
      by_cases h0 : k0 = k
      · subst h0
        simp only [mapDelete, if_pos rfl]
        exact mapGet_eq_none_of_not_mem rest k0 hnd0.1
      · simp [mapDelete, h0, mapGet, ih hnd0.2]

theorem mapGet_mapDelete_ne (m : TicketMap) (k k' : String) (h : k ≠ k') :
    mapGet (mapDelete m k) k' = mapGet m k' := by
  induction m with
  | nil => simp [mapDelete]
  | cons p rest ih =>
      obtain ⟨k0, v0⟩ := p
      by_cases h0 : k0 = k
      · subst h0
        simp [mapDelete, mapGet, fun hc : k0 = k' => h hc]
      · simp [mapDelete, h0, mapGet, ih]

/-!
Model of the JS `Date` serialization used by the persistent store.
`JSON.stringify` renders a `Date` through `toISOString`
("YYYY-MM-DDTHH:MM:SS.mmmZ") and `loadActiveTickets` reconstructs it with
`new Date(isoString)`.  Instants are modelled as milliseconds since the
Unix epoch (a `Nat`).  The formatter and parser below model that runtime
behavior down to the character level.
-/

/-- Character for a single decimal digit (callers pass a value `< 10`). -/
def digitChar : Nat → Char
  | 0 => '0' | 1 => '1' | 2 => '2' | 3 => '3' | 4 => '4'
  | 5 => '5' | 6 => '6' | 7 => '7' | 8 => '8' | _ => '9'

/-- Numeric value of a decimal digit character. -/
def digitVal (c : Char) : Nat := c.toNat - 48

/-- Value of a big-endian string of decimal digit characters. -/
def decVal (cs : List Char) : Nat :=
  cs.foldl (fun a c => a * 10 + digitVal c) 0

/-- Fuelled big-endian decimal digit expansion of a natural number; the
fuel bounds the recursion depth and `natDigits` supplies enough of it. -/
def natDigitsF : Nat → Nat → List Char
  | 0, n => [digitChar (n % 10)]
  | fuel + 1, n =>
      if n < 10 then [digitChar n]
      else natDigitsF fuel (n / 10) ++ [digitChar (n % 10)]

/-- Big-endian decimal digits of a natural number. -/
def natDigits (n : Nat) : List Char := natDigitsF n n

/-- Digits of `n` left-padded with zeros to width `w` (as `padStart` in
`formatDateUTC`, and the fixed-width fields of `toISOString`). -/
def padDigits (w n : Nat) : List Char :=
  List.replicate (w - (natDigits n).length) '0' ++ natDigits n

theorem digitVal_digitChar (d : Nat) (h : d < 10) :
    digitVal (digitChar d) = d := by
  interval_cases d <;> decide

theorem isDigit_digitChar (d : Nat) (h : d < 10) :
    (digitChar d).isDigit = true := by
  interval_cases d <;> decide

theorem natDigitsF_spec (fuel n : Nat) (hf : n ≤ fuel) :
    (∀ c ∈ natDigitsF fuel n, c.isDigit = true) ∧
      decVal (natDigitsF fuel n) = n ∧ natDigitsF fuel n ≠ [] := by
  induction fuel generalizing n with
  | zero =>
      have hn : n = 0 := Nat.le_zero.mp hf
      subst hn
      refine ⟨?_, by decide, by decide⟩
      intro c hc
      simp [natDigitsF] at hc
      subst hc
      decide
  | succ fuel ih =>
      by_cases h10 : n < 10
      · refine ⟨?_, ?_, by simp [natDigitsF, h10]⟩
        · intro c hc
          simp [natDigitsF, h10] at hc
          subst hc
          exact isDigit_digitChar n h10
        · simp [natDigitsF, h10, decVal, digitVal_digitChar n h10]
      · have hlt : n / 10 ≤ fuel := by
          have h1 : n / 10 < n := Nat.div_lt_self (by omega) (by omega)
          omega
        obtain ⟨hdig, hval, hne⟩ := ih (n / 10) hlt
        refine ⟨?_, ?_, by simp [natDigitsF, h10]⟩
        · intro c hc
          simp [natDigitsF, h10] at hc
          rcases hc with hc | hc
          · exact hdig c hc
          · subst hc
            exact isDigit_digitChar _ (Nat.mod_lt _ (by omega))
        · have : decVal (natDigitsF fuel (n / 10) ++ [digitChar (n % 10)]) =
              decVal (natDigitsF fuel (n / 10)) * 10 + digitVal (digitChar (n % 10)) := by
            simp [decVal, List.foldl_append]
          simp only [natDigitsF, if_neg h10, this, hval,
            digitVal_digitChar _ (Nat.mod_lt _ (by omega))]
          omega

theorem natDigits_spec (n : Nat) :
    (∀ c ∈ natDigits n, c.isDigit = true) ∧
      decVal (natDigits n) = n ∧ natDigits n ≠ [] :=
  natDigitsF_spec n n (Nat.le_refl n)

theorem decVal_replicate_zero_append (k : Nat) (cs : List Char) :
    decVal (List.replicate k '0' ++ cs) = decVal cs := by
  induction k with
  | zero => simp
  | succ k ih =>
      have h0 : (0 : Nat) * 10 + digitVal '0' = 0 := by decide
      simp only [List.replicate_succ, List.cons_append, decVal, List.foldl_cons, h0]
      simpa [decVal] using ih

theorem padDigits_spec (w n : Nat) :
    (∀ c ∈ padDigits w n, c.isDigit = true) ∧
      decVal (padDigits w n) = n ∧ padDigits w n ≠ [] := by
  obtain ⟨hdig, hval, hne⟩ := natDigits_spec n
  refine ⟨?_, ?_, ?_⟩
  · intro c hc
    simp only [padDigits, List.mem_append] at hc
    rcases hc with hc | hc
    · have : c = '0' := List.eq_of_mem_replicate hc
      subst this
      decide
    · exact hdig c hc
  · rw [padDigits, decVal_replicate_zero_append]
    exact hval
  · simp [padDigits, hne]

/-- Gregorian leap-year rule (as implemented by the JS `Date` runtime that
`toISOString`/`new Date` rely on). -/
def isLeap (y : Nat) : Bool :=
  (y % 4 == 0 && y % 100 != 0) || y % 400 == 0

/-- Number of days in year `y`. -/
def daysInYear (y : Nat) : Nat := if isLeap y then 366 else 365

/-- Number of days in month `m` (1-based) of year `y`. -/
def daysInMonth (y m : Nat) : Nat :=
  if m = 2 then (if isLeap y then 29 else 28)
  else if m = 4 ∨ m = 6 ∨ m = 9 ∨ m = 11 then 30
  else 31

/-- Days in the `k` consecutive years starting at year `y0`. -/
def spanAux (y0 : Nat) : Nat → Nat
  | 0 => 0
  | k + 1 => spanAux y0 k + daysInYear (y0 + k)

/-- Days from Jan 1 of year `y0` to Jan 1 of year `y` (for `y0 ≤ y`). -/
def spanDays (y0 y : Nat) : Nat := spanAux y0 (y - y0)

/-- Days in the `k` consecutive months starting at month `m0` of year `y`. -/
def mSpanAux (y m0 : Nat) : Nat → Nat
  | 0 => 0
  | k + 1 => mSpanAux y m0 k + daysInMonth y (m0 + k)

/-- Days from the start of month `m0` to the start of month `m` in year
`y` (for `m0 ≤ m`). -/
def mSpan (y m0 m : Nat) : Nat := mSpanAux y m0 (m - m0)

/-- Fuelled year extraction: peel whole years off a day count starting at
year `y`; returns the final year and the remaining day-of-year. -/
def yearFromDaysF : Nat → Nat → Nat → Nat × Nat
  | 0, y, days => (y, days)
  | fuel + 1, y, days =>
      if days < daysInYear y then (y, days)
      else yearFromDaysF fuel (y + 1) (days - daysInYear y)

/-- Fuelled month extraction: peel whole months off a day-of-year count
starting at month `m` of year `y`. -/
def monthFromDaysF : Nat → Nat → Nat → Nat → Nat × Nat
  | 0, _, m, doy => (m, doy)
  | fuel + 1, y, m, doy =>
      if doy < daysInMonth y m then (m, doy)
      else monthFromDaysF fuel y (m + 1) (doy - daysInMonth y m)

/-- Civil date `(year, month, day)` of a day count since 1970-01-01. -/
def civilFromDays (days : Nat) : Nat × Nat × Nat :=
  let p := yearFromDaysF days 1970 days
  let q := monthFromDaysF p.2 p.1 1 p.2
  (p.1, q.1, q.2 + 1)

/-- Day count since 1970-01-01 of a civil date `(y, m, d)`. -/
def daysFromCivil (y m d : Nat) : Nat :=
  spanDays 1970 y + mSpan y 1 m + (d - 1)

theorem daysInYear_bounds (y : Nat) : 365 ≤ daysInYear y ∧ daysInYear y ≤ 366 := by
  unfold daysInYear
  split <;> omega

theorem daysInMonth_bounds (y m : Nat) :
    28 ≤ daysInMonth y m ∧ daysInMonth y m ≤ 31 := by
  unfold daysInMonth
  split
  · split <;> omega
  · split <;> omega

theorem spanAux_succ_left (y0 k : Nat) :
    spanAux y0 (k + 1) = daysInYear y0 + spanAux (y0 + 1) k := by
  induction k with
  | zero => simp [spanAux]
  | succ k ih =>
      have h1 : spanAux y0 (k + 1 + 1) = spanAux y0 (k + 1) + daysInYear (y0 + (k + 1)) := rfl
      have h2 : spanAux (y0 + 1) (k + 1) = spanAux (y0 + 1) k + daysInYear (y0 + 1 + k) := rfl
      rw [h1, ih, h2]
      have : y0 + (k + 1) = y0 + 1 + k := by omega
      rw [this]
      omega

theorem spanDays_left_step (y0 y : Nat) (h : y0 < y) :
    spanDays y0 y = daysInYear y0 + spanDays (y0 + 1) y := by
  unfold spanDays
  have h1 : y - y0 = (y - (y0 + 1)) + 1 := by omega
  rw [h1, spanAux_succ_left]

theorem mSpanAux_succ_left (y m0 k : Nat) :
    mSpanAux y m0 (k + 1) = daysInMonth y m0 + mSpanAux y (m0 + 1) k := by
  induction k with
  | zero => simp [mSpanAux]
  | succ k ih =>
      have h1 : mSpanAux y m0 (k + 1 + 1) = mSpanAux y m0 (k + 1) + daysInMonth y (m0 + (k + 1)) := rfl
      have h2 : mSpanAux y (m0 + 1) (k + 1) = mSpanAux y (m0 + 1) k + daysInMonth y (m0 + 1 + k) := rfl
      rw [h1, ih, h2]
      have : m0 + (k + 1) = m0 + 1 + k := by omega
      rw [this]
      omega

theorem mSpan_left_step (y m0 m : Nat) (h : m0 < m) :
    mSpan y m0 m = daysInMonth y m0 + mSpan y (m0 + 1) m := by
  unfold mSpan
  have h1 : m - m0 = (m - (m0 + 1)) + 1 := by omega
  rw [h1, mSpanAux_succ_left]

theorem yearFromDaysF_spec (fuel : Nat) : ∀ y0 days : Nat, days ≤ fuel →
    days = spanDays y0 (yearFromDaysF fuel y0 days).1 + (yearFromDaysF fuel y0 days).2 ∧
      (yearFromDaysF fuel y0 days).2 < daysInYear (yearFromDaysF fuel y0 days).1 ∧
      y0 ≤ (yearFromDaysF fuel y0 days).1 := by
  induction fuel with
  | zero =>
      intro y0 days hf
      have hd : days = 0 := by omega
      subst hd
      have := daysInYear_bounds y0
      refine ⟨?_, by simpa [yearFromDaysF] using (by omega : 0 < daysInYear y0), by simp [yearFromDaysF]⟩
      simp [yearFromDaysF, spanDays, spanAux]
  | succ fuel ih =>
      intro y0 days hf
      by_cases h : days < daysInYear y0
      · refine ⟨?_, by simp [yearFromDaysF, h], by simp [yearFromDaysF, h]⟩
        simp [yearFromDaysF, h, spanDays, spanAux]
      · have hy := daysInYear_bounds y0
        have hrec : days - daysInYear y0 ≤ fuel := by omega
        obtain ⟨ihval, ihrem, ihy⟩ := ih (y0 + 1) (days - daysInYear y0) hrec
        have hred : yearFromDaysF (fuel + 1) y0 days =
            yearFromDaysF fuel (y0 + 1) (days - daysInYear y0) := by
          simp [yearFromDaysF, h]
        rw [hred]
        refine ⟨?_, ihrem, by omega⟩
        have hstep := spanDays_left_step y0 (yearFromDaysF fuel (y0 + 1) (days - daysInYear y0)).1 (by omega)
        omega

theorem monthFromDaysF_spec (fuel : Nat) : ∀ y m0 doy : Nat, doy ≤ fuel →
    doy = mSpan y m0 (monthFromDaysF fuel y m0 doy).1 + (monthFromDaysF fuel y m0 doy).2 ∧
      (monthFromDaysF fuel y m0 doy).2 < daysInMonth y (monthFromDaysF fuel y m0 doy).1 ∧
      m0 ≤ (monthFromDaysF fuel y m0 doy).1 ∧
      (monthFromDaysF fuel y m0 doy).1 * 28 ≤ m0 * 28 + doy := by
  induction fuel with
  | zero =>
      intro y m0 doy hf
      have hd : doy = 0 := by omega
      subst hd
      have := daysInMonth_bounds y m0
      refine ⟨?_, by simpa [monthFromDaysF] using (by omega : 0 < daysInMonth y m0),
        by simp [monthFromDaysF], by simp [monthFromDaysF]⟩
      simp [monthFromDaysF, mSpan, mSpanAux]
  | succ fuel ih =>
      intro y m0 doy hf
      by_cases h : doy < daysInMonth y m0
      · refine ⟨?_, by simp [monthFromDaysF, h], by simp [monthFromDaysF, h],
          by simp only [monthFromDaysF, if_pos h]; omega⟩
        simp [monthFromDaysF, h, mSpan, mSpanAux]
      · have hm := daysInMonth_bounds y m0
        have hrec : doy - daysInMonth y m0 ≤ fuel := by omega
        obtain ⟨ihval, ihrem, ihm, ihb⟩ := ih y (m0 + 1) (doy - daysInMonth y m0) hrec
        have hred : monthFromDaysF (fuel + 1) y m0 doy =
            monthFromDaysF fuel y (m0 + 1) (doy - daysInMonth y m0) := by
          simp [monthFromDaysF, h]
        rw [hred]
        refine ⟨?_, ihrem, by omega, by omega⟩
        have hstep := mSpan_left_step y m0 (monthFromDaysF fuel y (m0 + 1) (doy - daysInMonth y m0)).1 (by omega)
        omega

theorem civilFromDays_spec (days : Nat) :
    daysFromCivil (civilFromDays days).1 (civilFromDays days).2.1 (civilFromDays days).2.2 = days ∧
      1 ≤ (civilFromDays days).2.1 ∧ (civilFromDays days).2.1 ≤ 14 ∧
      1 ≤ (civilFromDays days).2.2 ∧ (civilFromDays days).2.2 ≤ 31 ∧
      1970 ≤ (civilFromDays days).1 := by
  obtain ⟨hyval, hyrem, hy⟩ := yearFromDaysF_spec days 1970 days (Nat.le_refl days)
  set p := yearFromDaysF days 1970 days with hp
  obtain ⟨hmval, hmrem, hm, hmb⟩ := monthFromDaysF_spec p.2 p.1 1 p.2 (Nat.le_refl p.2)
  set q := monthFromDaysF p.2 p.1 1 p.2 with hq
  have hyb := daysInYear_bounds p.1
  have hdm := daysInMonth_bounds p.1 q.1
  have h1 : (civilFromDays days).1 = p.1 := by
    simp [civilFromDays, ← hp, ← hq]
  have h2 : (civilFromDays days).2.1 = q.1 := by
    simp [civilFromDays, ← hp, ← hq]
  have h3 : (civilFromDays days).2.2 = q.2 + 1 := by
    simp [civilFromDays, ← hp, ← hq]
  rw [h1, h2, h3]
  refine ⟨?_, by omega, by omega, by omega, by omega, by omega⟩
  simp only [daysFromCivil]
  omega

theorem natDigitsF_length_le (fuel : Nat) : ∀ n w : Nat, n ≤ fuel → n < 10 ^ w → 1 ≤ w →
    (natDigitsF fuel n).length ≤ w := by
  induction fuel with
  | zero =>
      intro n w hf hw h1
      simp [natDigitsF]
      omega
  | succ fuel ih =>
      intro n w hf hw h1
      by_cases h : n < 10
      · simp [natDigitsF, h]
        omega
      · have hw2 : 2 ≤ w := by
          rcases Nat.lt_or_ge w 2 with hlt | hge
          · have hweq : w = 1 := by omega
            subst hweq
            simp at hw
            omega
          · exact hge
        have hpow : 10 ^ w = 10 ^ (w - 1) * 10 := by
          rw [← pow_succ]
          congr 1
          omega
        have hdiv : n / 10 < 10 ^ (w - 1) := Nat.div_lt_of_lt_mul (by omega)
        have hfd : n / 10 ≤ fuel := by
          have := Nat.div_lt_self (show 0 < n by omega) (show 1 < 10 by omega)
          omega
        have hlen := ih (n / 10) (w - 1) hfd hdiv (by omega)
        simp [natDigitsF, h]
        omega

theorem padDigits_length (w n : Nat) (hw : 1 ≤ w) (h : n < 10 ^ w) :
    (padDigits w n).length = w := by
  have hle : (natDigits n).length ≤ w := natDigitsF_length_le n n w (Nat.le_refl n) h hw
  simp [padDigits]
  omega

theorem padDigits_two (n : Nat) (h : n < 100) :
    ∃ a b, padDigits 2 n = [a, b] ∧ a.isDigit = true ∧ b.isDigit = true ∧
      decVal [a, b] = n := by
  obtain ⟨hdig, hval, _⟩ := padDigits_spec 2 n
  have hlen : (padDigits 2 n).length = 2 := padDigits_length 2 n (by omega) (by norm_num; omega)
  obtain ⟨a, b, hab⟩ := List.length_eq_two.mp hlen
  exact ⟨a, b, hab, hdig a (by simp [hab]), hdig b (by simp [hab]), by rw [← hab]; exact hval⟩

theorem padDigits_three (n : Nat) (h : n < 1000) :
    ∃ a b c, padDigits 3 n = [a, b, c] ∧ a.isDigit = true ∧ b.isDigit = true ∧
      c.isDigit = true ∧ decVal [a, b, c] = n := by
  obtain ⟨hdig, hval, _⟩ := padDigits_spec 3 n
  have hlen : (padDigits 3 n).length = 3 := padDigits_length 3 n (by omega) (by norm_num; omega)
  obtain ⟨a, b, c, habc⟩ := List.length_eq_three.mp hlen
  exact ⟨a, b, c, habc, hdig a (by simp [habc]), hdig b (by simp [habc]),
    hdig c (by simp [habc]), by rw [← habc]; exact hval⟩

theorem takeWhile_append_stop (p : Char → Bool) (xs : List Char) (d : Char)
    (rest : List Char) (hx : ∀ c ∈ xs, p c = true) (hd : p d = false) :
    (xs ++ d :: rest).takeWhile p = xs ∧ (xs ++ d :: rest).dropWhile p = d :: rest := by
  induction xs with
  | nil => simp [List.takeWhile_cons, List.dropWhile_cons, hd]
  | cons x xs ih =>
      have hx0 : p x = true := hx x (by simp)
      have hrec := ih (fun c hc => hx c (by simp [hc]))
      simp [List.takeWhile_cons, List.dropWhile_cons, hx0, hrec.1, hrec.2]

/-- Model of `Date.prototype.toISOString` applied to a millisecond epoch
count: the character sequence "YYYY-MM-DDTHH:MM:SS.mmmZ" that
`JSON.stringify` stores for each `Date` field of a ticket. -/
def isoChars (t : Nat) : List Char :=
  let c := civilFromDays (t / 86400000)
  let msDay := t % 86400000
  padDigits 4 c.1 ++ '-' :: (padDigits 2 c.2.1 ++ '-' :: (padDigits 2 c.2.2 ++
    'T' :: (padDigits 2 (msDay / 3600000) ++ ':' :: (padDigits 2 (msDay % 3600000 / 60000) ++
    ':' :: (padDigits 2 (msDay % 60000 / 1000) ++ '.' :: (padDigits 3 (msDay % 1000) ++ ['Z']))))))

/-- String form of `isoChars`. -/
def isoString (t : Nat) : String := String.mk (isoChars t)

/-- Tail of the ISO parse after the (variable-width) year digits: the
fixed-width month, day, hour, minute, second and millisecond fields. -/
def parseISOTail (y : Nat) (l : List Char) : Option Nat :=
  match l with
  | a :: m1 :: m2 :: b :: d1 :: d2 :: tc :: h1 :: h2 :: q1 :: n1 :: n2 :: q2 ::
      s1 :: s2 :: dt :: x1 :: x2 :: x3 :: z :: [] =>
      if a = '-' ∧ b = '-' ∧ tc = 'T' ∧ q1 = ':' ∧ q2 = ':' ∧ dt = '.' ∧ z = 'Z' ∧
          m1.isDigit = true ∧ m2.isDigit = true ∧ d1.isDigit = true ∧ d2.isDigit = true ∧
          h1.isDigit = true ∧ h2.isDigit = true ∧ n1.isDigit = true ∧ n2.isDigit = true ∧
          s1.isDigit = true ∧ s2.isDigit = true ∧
          x1.isDigit = true ∧ x2.isDigit = true ∧ x3.isDigit = true then
        some (daysFromCivil y (decVal [m1, m2]) (decVal [d1, d2]) * 86400000 +
          decVal [h1, h2] * 3600000 + decVal [n1, n2] * 60000 +
          decVal [s1, s2] * 1000 + decVal [x1, x2, x3])
      else none
  | _ => none

/-- Model of `new Date(s)` applied to an ISO-8601 timestamp: recovers the
millisecond epoch count, or `none` (JS "Invalid Date") on malformed
input. -/
def parseISOChars (l : List Char) : Option Nat :=
  let yds := l.takeWhile Char.isDigit
  if yds.isEmpty then none
  else parseISOTail (decVal yds) (l.dropWhile Char.isDigit)

/-- String form of `parseISOChars`. -/
def parseISODate (s : String) : Option Nat := parseISOChars s.data

theorem parseISOChars_isoChars (t : Nat) : parseISOChars (isoChars t) = some t := by
  obtain ⟨hciv, hmo1, hmo14, hday1, hday31, hy1970⟩ := civilFromDays_spec (t / 86400000)
  obtain ⟨hy4dig, hy4val, hy4ne⟩ := padDigits_spec 4 (civilFromDays (t / 86400000)).1
  obtain ⟨a1, a2, hmoeq, hmoad, hmobd, hmoval⟩ :=
    padDigits_two (civilFromDays (t / 86400000)).2.1 (by omega)
  obtain ⟨b1, b2, hdeq, hdad, hdbd, hdval⟩ :=
    padDigits_two (civilFromDays (t / 86400000)).2.2 (by omega)
  obtain ⟨c1, c2, hheq, hhad, hhbd, hhval⟩ :=
    padDigits_two (t % 86400000 / 3600000) (by omega)
  obtain ⟨e1, e2, hmieq, hmiad, hmibd, hmival⟩ :=
    padDigits_two (t % 86400000 % 3600000 / 60000) (by omega)
  obtain ⟨f1, f2, hseq, hsad, hsbd, hsval⟩ :=
    padDigits_two (t % 86400000 % 60000 / 1000) (by omega)
  obtain ⟨g1, g2, g3, hxeq, hx1d, hx2d, hx3d, hxval⟩ :=
    padDigits_three (t % 86400000 % 1000) (by omega)
  have hiso : isoChars t = padDigits 4 (civilFromDays (t / 86400000)).1 ++ '-' ::
      (a1 :: a2 :: '-' :: (b1 :: b2 :: 'T' :: (c1 :: c2 :: ':' :: (e1 :: e2 :: ':' ::
      (f1 :: f2 :: '.' :: (g1 :: g2 :: g3 :: ['Z'])))))) := by
    simp [isoChars, hmoeq, hdeq, hheq, hmieq, hseq, hxeq]
  have htw := takeWhile_append_stop Char.isDigit
    (padDigits 4 (civilFromDays (t / 86400000)).1) '-'
    (a1 :: a2 :: '-' :: (b1 :: b2 :: 'T' :: (c1 :: c2 :: ':' :: (e1 :: e2 :: ':' ::
      (f1 :: f2 :: '.' :: (g1 :: g2 :: g3 :: ['Z']))))))
    hy4dig (by decide)
  rw [hiso]
  rw [parseISOChars]
  simp only [htw.1, htw.2]
  rw [if_neg (by simpa [List.isEmpty_iff] using hy4ne)]
  rw [hy4val]
  rw [parseISOTail]
  rw [if_pos ⟨rfl, rfl, rfl, rfl, rfl, rfl, rfl, hmoad, hmobd, hdad, hdbd,
    hhad, hhbd, hmiad, hmibd, hsad, hsbd, hx1d, hx2d, hx3d⟩]
  rw [hmoval, hdval, hhval, hmival, hsval, hxval, hciv]
  simp only [Option.some.injEq]
  omega

theorem parseISODate_isoString (t : Nat) : parseISODate (isoString t) = some t := by
  have : (isoString t).data = isoChars t := rfl
  rw [parseISODate, this]
  exact parseISOChars_isoChars t

/-- Serialization of one in-memory record, as `JSON.stringify` renders it
inside `processNextSave`: `Date` fields become ISO strings through
`Date.prototype.toJSON`, all other fields pass through unchanged. -/
def serializeTicket (r : TicketRecord) : StoredTicket :=
  { channelId := some r.channelId
    userId := r.userId
    category := r.category
    createdAt := r.createdAt.map isoString
    closed := r.closed
    closedAt := r.closedAt.map isoString
    closedBy := r.closedBy
    reopenedAt := r.reopenedAt.map isoString
    reopenedBy := r.reopenedBy
    manuallyRegistered := r.manuallyRegistered
    formData := r.formData }

/-- Serialized image of the whole registry: the keyed document that
`processNextSave` writes to `active_tickets.json` (one entry per map key,
in map order). -/
def serializeMap (m : TicketMap) : List (String × StoredTicket) :=
  m.map (fun p => (p.1, serializeTicket p.2))

/-- Truthiness-guarded `Date` revival of `loadActiveTickets`
(`if (value.createdAt) value.createdAt = new Date(value.createdAt)`):
absent and empty-string fields are left non-dates (modelled `none`), any
other string goes through `new Date` (modelled by `parseISODate`, with
`none` standing for an Invalid Date). -/
def reviveDate : Option String → Option Nat
  | none => none
  | some s => if s = "" then none else parseISODate s

/-- One entry of `loadActiveTickets`: backfill a falsy `channelId` from
the map key (`if (!value.channelId) value.channelId = key`) and revive
the three `Date` fields. -/
def loadStored (k : String) (s : StoredTicket) : TicketRecord :=
  { channelId :=
      match s.channelId with
      | none => k
      | some cid => if cid = "" then k else cid
    userId := s.userId
    category := s.category
    createdAt := reviveDate s.createdAt
    closed := s.closed
    closedAt := reviveDate s.closedAt
    closedBy := s.closedBy
    reopenedAt := reviveDate s.reopenedAt
    reopenedBy := s.reopenedBy
    manuallyRegistered := s.manuallyRegistered
    formData := s.formData }

/-- `loadActiveTickets` over an already-parsed persistence document:
rebuild the registry map entry by entry. -/
def loadTickets (doc : List (String × StoredTicket)) : TicketMap :=
  doc.map (fun p => (p.1, loadStored p.1 p.2))

theorem isoChars_ne_nil (t : Nat) : isoChars t ≠ [] := by
  have h := (padDigits_spec 4 (civilFromDays (t / 86400000)).1).2.2
  simp only [isoChars]
  intro hc
  rcases List.append_eq_nil.mp hc with ⟨h1, _⟩
  exact h h1

theorem isoString_ne_empty (t : Nat) : isoString t ≠ "" := by
  intro h
  have : (isoString t).data = ("" : String).data := by rw [h]
  simp only [isoString] at this
  exact isoChars_ne_nil t (by simpa using this)

theorem reviveDate_roundtrip (o : Option Nat) :
    reviveDate (o.map isoString) = o := by
  cases o with
  | none => simp [reviveDate]
  | some t =>
      have h : reviveDate (Option.map isoString (some t)) =
          (if isoString t = "" then none else parseISODate (isoString t)) := rfl
      rw [h, if_neg (isoString_ne_empty t)]
      exact parseISODate_isoString t

theorem loadStored_serializeTicket (k : String) (r : TicketRecord) :
    loadStored k (serializeTicket r) =
      { r with channelId := if r.channelId = "" then k else r.channelId } := by
  simp [loadStored, serializeTicket, reviveDate_roundtrip]

theorem mapGet_mapTransform (f : String → TicketRecord → TicketRecord)
    (m : TicketMap) (k : String) :
    mapGet (m.map (fun p => (p.1, f p.1 p.2))) k = (mapGet m k).map (f k) := by
  induction m with
  | nil => simp [mapGet]
  | cons p rest ih =>
      obtain ⟨k0, v0⟩ := p
      by_cases h : k0 = k
      · subst h
        simp [mapGet]
      · simp [mapGet, h, ih]

theorem loadTickets_serializeMap (m : TicketMap) (k : String) :
    mapGet (loadTickets (serializeMap m)) k =
      (mapGet m k).map (fun r =>
        { r with channelId := if r.channelId = "" then k else r.channelId }) := by
  have h1 : loadTickets (serializeMap m) =
      m.map (fun p => (p.1, loadStored p.1 (serializeTicket p.2))) := by
    simp [loadTickets, serializeMap]
  rw [h1, mapGet_mapTransform (fun k r => loadStored k (serializeTicket r)) m k]
  cases mapGet m k with
  | none => rfl
  | some r => simp [loadStored_serializeTicket]

/-!
The save pipeline of `s.js`: `saveActiveTickets` enqueues a copy of the
map and kicks `processNextSave` when idle; `processNextSave` shifts one
request, awaits a whole-file `writeFile`, resolves that request's
promise, and schedules itself again via `setTimeout`.  The state below
captures the queue, the `isSaving` flag, the write currently awaited (if
any), the pending `setTimeout` callback, the file content, the sequence
of completed whole-file writes in order, and how many save promises have
resolved.
-/
structure SaveSystem where
  queue : List TicketMap
  isSaving : Bool
  inFlight : Option TicketMap
  pendingNext : Bool
  disk : Option (List (String × StoredTicket))
  writeLog : List (List (String × StoredTicket))
  resolved : Nat
deriving DecidableEq, Repr

/-- State at module load: empty `saveQueue`, `isSaving = false`, no file
written yet by this process. -/
def initSave : SaveSystem :=
  { queue := [], isSaving := false, inFlight := none, pendingNext := false,
    disk := none, writeLog := [], resolved := 0 }

/-- One entry of `processNextSave` up to its `await`: with an empty queue
it clears `isSaving` and returns; otherwise it sets `isSaving`, shifts
the head request and issues its write. -/
def processNextStep (st : SaveSystem) : SaveSystem :=
  match st.queue with
  | [] => { st with isSaving := false }
  | s :: rest => { st with isSaving := true, queue := rest, inFlight := some s }

/-- `saveActiveTickets(tickets)`: push a snapshot (`new Map(tickets)`,
identity in this immutable model) onto `saveQueue`; if `isSaving` is
false, run `processNextSave` synchronously. -/
def saveCall (st : SaveSystem) (s : TicketMap) : SaveSystem :=
  let st1 := { st with queue := st.queue ++ [s] }
  if st.isSaving then st1 else processNextStep st1

/-- Completion of the awaited `writeFile`: the whole serialized document
atomically becomes the file content, the request's promise resolves, and
the `finally` clause schedules `setTimeout(processNextSave, 10)`. -/
def finishWrite (st : SaveSystem) (s : TicketMap) : SaveSystem :=
  { st with
      disk := some (serializeMap s)
      writeLog := st.writeLog ++ [serializeMap s]
      resolved := st.resolved + 1
      inFlight := none
      pendingNext := true }

/-- The `setTimeout` callback firing: run `processNextSave` again. -/
def timerFire (st : SaveSystem) : SaveSystem :=
  processNextStep { st with pendingNext := false }

/-- Valid interleavings of the save pipeline starting from `st0`: any
sequence of external `saveActiveTickets` calls (listed in call order by
the first index) interleaved with write completions and timer callbacks,
the latter two enabled only when a write is actually in flight or a
callback actually pending. -/
inductive SaveRun (st0 : SaveSystem) : List TicketMap → SaveSystem → Prop
  | refl : SaveRun st0 [] st0
  | call (cs : List TicketMap) (st : SaveSystem) (s : TicketMap) :
      SaveRun st0 cs st → SaveRun st0 (cs ++ [s]) (saveCall st s)
  | finish (cs : List TicketMap) (st : SaveSystem) (s : TicketMap) :
      SaveRun st0 cs st → st.inFlight = some s → SaveRun st0 cs (finishWrite st s)
  | timer (cs : List TicketMap) (st : SaveSystem) :
      SaveRun st0 cs st → st.pendingNext = true → SaveRun st0 cs (timerFire st)

/-- Inductive invariant of the save pipeline: bookkeeping flags are
consistent, every enqueued snapshot is written exactly once in enqueue
order (completed writes, then the write in flight, then the queue), each
resolution happened exactly at its own write's completion, and the file
always holds the most recently completed whole-file write. -/
def SaveInv (cs : List TicketMap) (st : SaveSystem) : Prop :=
  (st.isSaving = false → st.queue = [] ∧ st.inFlight = none ∧ st.pendingNext = false) ∧
  (st.pendingNext = true → st.inFlight = none ∧ st.isSaving = true) ∧
  (∀ s, st.inFlight = some s → st.isSaving = true ∧ st.pendingNext = false) ∧
  st.writeLog ++ (st.inFlight.map serializeMap).toList ++ st.queue.map serializeMap
    = cs.map serializeMap ∧
  st.resolved = st.writeLog.length ∧
  st.disk = st.writeLog.getLast?

theorem saveRun_inv (cs : List TicketMap) (st : SaveSystem)
    (h : SaveRun initSave cs st) : SaveInv cs st := by
  induction h with
  | refl =>
      refine ⟨fun _ => ⟨rfl, rfl, rfl⟩, by simp [initSave], by simp [initSave],
        rfl, rfl, rfl⟩
  | call cs st s hrun ih =>
      obtain ⟨h1, h2, h3, h4, h5, h6⟩ := ih
      by_cases hs : st.isSaving = true
      · have hred : saveCall st s = { st with queue := st.queue ++ [s] } := by
          simp [saveCall, hs]
        rw [hred]
        refine ⟨by simp [hs], by simpa using h2, by simpa using h3, ?_,
          by simpa using h5, by simpa using h6⟩
        show st.writeLog ++ (Option.map serializeMap st.inFlight).toList ++
            (st.queue ++ [s]).map serializeMap = (cs ++ [s]).map serializeMap
        rw [List.map_append, List.map_append, ← List.append_assoc, h4]
      · have hsf : st.isSaving = false := by
          simpa using hs
        obtain ⟨hq, hif, hpn⟩ := h1 hsf
        have hred : saveCall st s =
            { st with isSaving := true, queue := [], inFlight := some s } := by
          simp [saveCall, hsf, processNextStep, hq]
        rw [hred]
        refine ⟨by simp, by simp [hpn], by simp [hpn], ?_,
          by simpa using h5, by simpa using h6⟩
        rw [hif, hq] at h4
        simp at h4
        show st.writeLog ++ [serializeMap s] ++ ([] : List TicketMap).map serializeMap
            = (cs ++ [s]).map serializeMap
        simp [h4]
  | finish cs st s hrun hif ih =>
      obtain ⟨h1, h2, h3, h4, h5, h6⟩ := ih
      obtain ⟨hsv, hpn⟩ := h3 s hif
      refine ⟨by simp [finishWrite, hsv], by simp [finishWrite, hsv],
        by simp [finishWrite], ?_, by simp [finishWrite, h5], by simp [finishWrite]⟩
      simp only [finishWrite]
      rw [hif] at h4
      simp at h4
      simpa using h4
  | timer cs st hrun hpn ih =>
      obtain ⟨h1, h2, h3, h4, h5, h6⟩ := ih
      obtain ⟨hif, hsv⟩ := h2 hpn
      rw [hif] at h4
      simp at h4
      cases hq : st.queue with
      | nil =>
          have hred : timerFire st =
              { st with pendingNext := false, isSaving := false } := by
            simp [timerFire, processNextStep, hq]
          rw [hred]
          refine ⟨by simp [hq, hif], by simp, by simp [hif], ?_,
            by simpa using h5, by simpa using h6⟩
          rw [hq] at h4
          simpa [hif, hq] using h4
      | cons q rest =>
          have hred : timerFire st =
              { st with
                  pendingNext := false
                  isSaving := true
                  queue := rest
                  inFlight := some q } := by
            simp [timerFire, processNextStep, hq]
          rw [hred]
          refine ⟨by simp, by simp, by simp, ?_, by simpa using h5, by simpa using h6⟩
          rw [hq] at h4
          simpa using h4
/-- Quiescence: no queued request, no write in flight, no pending
callback — every issued save has fully settled. -/
def Quiescent (st : SaveSystem) : Prop :=
  st.queue = [] ∧ st.inFlight = none ∧ st.pendingNext = false

/-!
Authorization data.  `getTicketRoles` reads `config.staffRoles` from
`config.js`, which is not part of the sources; the table is therefore a
parameter of every definition below, while the logic applied to it is
taken from `s.js` verbatim.
-/

/-- One `config.staffRoles` entry as `getTicketRoles` discriminates it:
an array of role ids (`Array.isArray`), a single id, or a falsy value. -/
inductive RoleCfg
  | arr (ids : List String)
  | single (id : String)
  | absent
deriving DecidableEq, Repr

/-- Per-branch flattening of `getTicketRoles`: arrays are spread, a
truthy single value is pushed, a falsy value (absent or the empty
string) contributes nothing. -/
def RoleCfg.collect : RoleCfg → List String
  | RoleCfg.arr ids => ids
  | RoleCfg.single id => if id = "" then [] else [id]
  | RoleCfg.absent => []

/-- The `config.staffRoles` table consumed by `getTicketRoles`. -/
structure StaffRoles where
  hr : RoleCfg
  bookings : RoleCfg
  support : RoleCfg
  partnership : RoleCfg
  founders : RoleCfg
deriving DecidableEq, Repr

/-- `[...new Set(l)]` with an explicit seen-set: deduplicate keeping the
first occurrence of each element, in order. -/
def dedupAux : List String → List String → List String
  | [], _ => []
  | x :: xs, seen =>
      if x ∈ seen then dedupAux xs seen else x :: dedupAux xs (x :: seen)

/-- `[...new Set(l)]`. -/
def jsSetDedup (l : List String) : List String := dedupAux l []

/-- The raw role list of `getTicketRoles` before its final line: the
`switch` over the ticket category (`joinTeam` and `hr` both read
`staffRoles.hr`, unknown categories collect nothing). -/
def rawRoles (cfg : StaffRoles) (category : String) : List String :=
  if category = "joinTeam" then cfg.hr.collect
  else if category = "bookUs" then cfg.bookings.collect
  else if category = "support" then cfg.support.collect
  else if category = "partnership" then cfg.partnership.collect
  else if category = "founders" then cfg.founders.collect
  else if category = "hr" then cfg.hr.collect
  else []

/-- `getTicketRoles` of `s.js`: collect the configured roles for the
category, then `[...new Set(roles.filter(Boolean))]` — drop falsy
entries and deduplicate. -/
def getTicketRoles (cfg : StaffRoles) (category : String) : List String :=
  jsSetDedup ((rawRoles cfg category).filter (fun r => r != ""))

/-- `isValidSnowflake` of `s.js`: truthy, decimal digits only
(`/^\d+$/`), and 17 to 19 characters long. -/
def isValidSnowflake (id : String) : Bool :=
  id != "" && id.data.all Char.isDigit &&
    decide (17 ≤ id.length) && decide (id.length ≤ 19)

/-- The extra filter both creation paths apply to `getTicketRoles`
before using the roles
(`getTicketRoles(ticketType).filter(roleId => isValidSnowflake(roleId))`). -/
def visibleRoles (cfg : StaffRoles) (category : String) : List String :=
  (getTicketRoles cfg category).filter isValidSnowflake

theorem mem_dedupAux (l : List String) : ∀ seen x,
    x ∈ dedupAux l seen ↔ x ∈ l ∧ x ∉ seen := by
  induction l with
  | nil => intro seen x; simp [dedupAux]
  | cons y ys ih =>
      intro seen x
      by_cases hy : y ∈ seen
      · simp only [dedupAux, if_pos hy, ih]
        constructor
        · rintro ⟨hx, hs⟩
          exact ⟨List.mem_cons_of_mem _ hx, hs⟩
        · rintro ⟨hx, hs⟩
          rcases List.mem_cons.mp hx with he | hx
          · subst he; exact absurd hy hs
          · exact ⟨hx, hs⟩
      · simp only [dedupAux, if_neg hy, List.mem_cons, ih]
        constructor
        · rintro (he | ⟨hx, hs⟩)
          · subst he; exact ⟨Or.inl rfl, hy⟩
          · exact ⟨Or.inr hx, fun hc => hs (Or.inr hc)⟩
        · rintro ⟨he | hx, hs⟩
          · exact Or.inl he
          · by_cases hxy : x = y
            · exact Or.inl hxy
            · refine Or.inr ⟨hx, fun hc => ?_⟩
              rcases hc with h1 | h1
              · exact hxy h1
              · exact hs h1

theorem nodup_dedupAux (l : List String) : ∀ seen, (dedupAux l seen).Nodup := by
  induction l with
  | nil => intro seen; simp [dedupAux]
  | cons y ys ih =>
      intro seen
      by_cases hy : y ∈ seen
      · simpa [dedupAux, hy] using ih seen
      · simp only [dedupAux, if_neg hy, List.nodup_cons]
        refine ⟨fun hc => ?_, ih (y :: seen)⟩
        exact ((mem_dedupAux ys (y :: seen) y).mp hc).2 (by simp)

theorem mem_jsSetDedup (l : List String) (x : String) :
    x ∈ jsSetDedup l ↔ x ∈ l := by
  simp [jsSetDedup, mem_dedupAux]

theorem nodup_jsSetDedup (l : List String) : (jsSetDedup l).Nodup :=
  nodup_dedupAux l []

/-!
The lifecycle operations and the interaction router.  Each operation is
the registry-and-permission effect of the corresponding `async function`
of `s.js`, with the messaging side (embeds, prompts) abstracted into a
`Reply` value and the eventual persisted file content tracked in `disk`
(the save queue, verified separately, delivers exactly this content).
-/

/-- Channel permission state the lifecycle edits: whether SendMessages is
allowed for a (channel, user) pair (`channel.permissionOverwrites.edit`). -/
abbrev PermMap := List ((String × String) × Bool)

/-- Permission-overwrite edit: update in place or append. -/
def permSet : PermMap → String → String → Bool → PermMap
  | [], c, u, b => [((c, u), b)]
  | (p, v) :: rest, c, u, b =>
      if p = (c, u) then (p, b) :: rest else (p, v) :: permSet rest c u b

/-- Whole-system state threaded through the lifecycle operations: the
in-memory registry, channel permissions, and the persisted document (the
content `active_tickets.json` reaches once queued saves drain). -/
structure SysState where
  tickets : TicketMap
  perms : PermMap
  disk : Option (List (String × StoredTicket))
deriving DecidableEq, Repr

/-- User-visible outcome of one interaction, one constructor per distinct
reply of `s.js`. -/
inductive Reply
  | notATicket
  | notStaff
  | closePrompt
  | closedOk
  | cancelledOk
  | reopenedOk
  | deletedOk
  | transcriptOk
  | quotaTotalHit
  | quotaPerTypeHit
  | createdOk
  | registeredOk
  | alreadyRegistered
  | invalidType
  | genericError
deriving DecidableEq, Repr

/-- An interacting member: id, administrator bit, role ids. -/
structure Actor where
  userId : String
  isAdmin : Bool
  roles : List String
deriving DecidableEq, Repr

/-- The staff check of the router (lines 320-323 of `s.js`):
administrator permission, or membership in any role returned by
`getTicketRoles` for the ticket's current category. -/
def isStaffFor (cfg : StaffRoles) (a : Actor) (category : String) : Bool :=
  a.isAdmin || (getTicketRoles cfg category).any (fun r => a.roles.contains r)

/-- `closeTicket` (the close-request): re-check registry membership and
post the confirmation prompt; no record mutation, no save. -/
def closeTicketOp (st : SysState) (c : String) : SysState × Reply :=
  if mapHas st.tickets c then (st, Reply.closePrompt) else (st, Reply.notATicket)

/-- `closeTicketConfirmed`: on a registered channel, revoke the opener's
SendMessages, store the record with `closed`, `closedAt`, `closedBy`
set, and save.  On an unregistered channel the JS dereferences
`activeTickets.get(channel.id).userId` on `undefined`; the TypeError is
caught (`safeInteractionHandler`), a generic error — not the NotATicket
reply — reaches the user, and no state is touched. -/
def closeTicketConfirmedOp (st : SysState) (c actorId : String) (now : Nat) :
    SysState × Reply :=
  match mapGet st.tickets c with
  | none => (st, Reply.genericError)
  | some t =>
      let t1 := { t with closed := some true, closedAt := some now, closedBy := some actorId }
      let m1 := mapSet st.tickets c t1
      ({ st with
          perms := permSet st.perms c t.userId false
          tickets := m1
          disk := some (serializeMap m1) }, Reply.closedOk)

/-- `closeTicketCancelled`: dismiss the prompt; nothing else happens,
whether or not the channel is a ticket. -/
def closeTicketCancelledOp (st : SysState) : SysState × Reply :=
  (st, Reply.cancelledOk)

/-- `reopenTicket`: restore SendMessages, store the record with `closed`
cleared and `reopenedAt`, `reopenedBy` set, and save. -/
def reopenTicketOp (st : SysState) (c actorId : String) (now : Nat) :
    SysState × Reply :=
  match mapGet st.tickets c with
  | none => (st, Reply.notATicket)
  | some t =>
      let t1 := { t with closed := some false, reopenedAt := some now, reopenedBy := some actorId }
      let m1 := mapSet st.tickets c t1
      ({ st with
          perms := permSet st.perms c t.userId true
          tickets := m1
          disk := some (serializeMap m1) }, Reply.reopenedOk)

/-- `deleteTicket`: archive a transcript (best effort, outside this
state), remove the record from the registry, save; the channel itself is
deleted after a 5-second delay (outside this state). -/
def deleteTicketOp (st : SysState) (c : String) : SysState × Reply :=
  if mapHas st.tickets c then
    let m1 := mapDelete st.tickets c
    ({ st with tickets := m1, disk := some (serializeMap m1) }, Reply.deletedOk)
  else (st, Reply.notATicket)

/-- Button identifiers of the ticket-management rows. -/
inductive Btn
  | close
  | delete
  | reopen
  | transcript
  | closeConfirm
  | closeCancel
deriving DecidableEq, Repr

/-- Router dispatch for ticket-management buttons (`setupTicketSystem`,
lines 298-348): the four managed buttons (`ticket_close`,
`ticket_delete`, `ticket_reopen`, `ticket_transcript`) pass the registry
check (NotATicket reply if the channel has no record) and — except the
transcript — the staff check; `ticket_close_confirm` and
`ticket_close_cancel` are dispatched separately with neither check. -/
def handleButton (cfg : StaffRoles) (st : SysState) (b : Btn) (a : Actor)
    (c : String) (now : Nat) : SysState × Reply :=
  match b with
  | Btn.closeConfirm => closeTicketConfirmedOp st c a.userId now
  | Btn.closeCancel => closeTicketCancelledOp st
  | _ =>
      match mapGet st.tickets c with
      | none => (st, Reply.notATicket)
      | some t =>
          if b ≠ Btn.transcript ∧ isStaffFor cfg a t.category = false then
            (st, Reply.notStaff)
          else
            match b with
            | Btn.close => closeTicketOp st c
            | Btn.delete => deleteTicketOp st c
            | Btn.reopen => reopenTicketOp st c a.userId now
            | _ => (st, Reply.transcriptOk)

/-- `config.ticketOptions` as read by both creation paths, with their
fallbacks (`?? 10`, `?? 3`) applied through `maxTotal`/`maxPerType`. -/
structure TicketOptions where
  maxTicketsPerUser : Option Nat
  maxTicketsPerUserPerType : Option Nat
deriving DecidableEq, Repr

/-- `config.ticketOptions?.maxTicketsPerUser ?? 10`. -/
def maxTotal (o : TicketOptions) : Nat := o.maxTicketsPerUser.getD 10

/-- `config.ticketOptions?.maxTicketsPerUserPerType ?? 3`. -/
def maxPerType (o : TicketOptions) : Nat := o.maxTicketsPerUserPerType.getD 3

/-- The user's open tickets: `Array.from(activeTickets.values())
.filter(t => t.userId === user.id && !t.closed)`. -/
def userOpenTickets (m : TicketMap) (userId : String) : List TicketRecord :=
  (m.map Prod.snd).filter (fun t => t.userId == userId && !t.isClosed)

/-- The open subset further filtered to the requested category. -/
def userOpenTicketsOfType (m : TicketMap) (userId category : String) :
    List TicketRecord :=
  (userOpenTickets m userId).filter (fun t => t.category == category)

/-- Creation (`createTicket` and `createTicketWithFormData` share this
quota-and-insert logic): check the total cap, then the per-category cap,
both against the open subset only; on success create the channel
(`newChannel` is the fresh channel id), grant the requester
SendMessages, register the record under the channel's own id, and
save. -/
def createTicketOp (opts : TicketOptions) (st : SysState)
    (userId category newChannel : String) (now : Nat) (formData : Option String) :
    SysState × Reply :=
  if (userOpenTickets st.tickets userId).length ≥ maxTotal opts then
    (st, Reply.quotaTotalHit)
  else if (userOpenTicketsOfType st.tickets userId category).length ≥ maxPerType opts then
    (st, Reply.quotaPerTypeHit)
  else
    let r : TicketRecord :=
      { channelId := newChannel
        userId := userId
        category := category
        createdAt := some now
        closed := none
        closedAt := none
        closedBy := none
        reopenedAt := none
        reopenedBy := none
        manuallyRegistered := none
        formData := formData }
    let m1 := mapSet st.tickets newChannel r
    ({ st with
        tickets := m1
        perms := permSet st.perms newChannel userId true
        disk := some (serializeMap m1) }, Reply.createdOk)

/-- `registerExistingTicket`: admin-only; validates the category against
the fixed list, rejects an already-registered channel, otherwise
registers a `manuallyRegistered` record under the channel's id and
saves. -/
def registerTicketOp (st : SysState) (a : Actor) (chan targetUser category : String)
    (now : Nat) : SysState × Reply :=
  if a.isAdmin = false then (st, Reply.notStaff)
  else if (["support", "joinTeam", "bookUs", "partnership", "founders", "hr"].contains category) = false then
    (st, Reply.invalidType)
  else if mapHas st.tickets chan then (st, Reply.alreadyRegistered)
  else
    let r : TicketRecord :=
      { channelId := chan
        userId := targetUser
        category := category
        createdAt := some now
        closed := none
        closedAt := none
        closedBy := none
        reopenedAt := none
        reopenedBy := none
        manuallyRegistered := some true
        formData := none }
    let m1 := mapSet st.tickets chan r
    ({ st with tickets := m1, disk := some (serializeMap m1) }, Reply.registeredOk)

/-- The startup sweep of `setupTicketSystem`'s ready handler: evict every
record whose channel no longer resolves, then save. -/
def pruneOp (st : SysState) (live : List String) : SysState :=
  let m1 := st.tickets.filter (fun p => live.contains p.1)
  { st with tickets := m1, disk := some (serializeMap m1) }

/-- Key-consistency: every registry entry's record carries its map key as
`channelId`. -/
def KeysOk (m : TicketMap) : Bool :=
  m.all (fun p => p.2.channelId == p.1)

theorem keysOk_mem (m : TicketMap) (h : KeysOk m = true) (k : String)
    (v : TicketRecord) (hget : mapGet m k = some v) : v.channelId = k := by
  have hm := mapGet_mem m k v hget
  have := List.all_eq_true.mp h (k, v) hm
  simpa using this

theorem keysOk_mapSet (m : TicketMap) (k : String) (v : TicketRecord)
    (h : KeysOk m = true) (hv : v.channelId = k) : KeysOk (mapSet m k v) = true := by
  induction m with
  | nil => simp [mapSet, KeysOk, hv]
  | cons p rest ih =>
      obtain ⟨k0, v0⟩ := p
      simp only [KeysOk, List.all_cons, Bool.and_eq_true] at h
      by_cases h0 : k0 = k
      · subst h0
        simp [mapSet, KeysOk, hv]
        intro a b hab
        have := List.all_eq_true.mp h.2 (a, b) hab
        simpa using this
      · simp only [mapSet, if_neg h0, KeysOk, List.all_cons, Bool.and_eq_true]
        exact ⟨h.1, ih h.2⟩

theorem keysOk_mapDelete (m : TicketMap) (k : String) (h : KeysOk m = true) :
    KeysOk (mapDelete m k) = true := by
  induction m with
  | nil => simp [mapDelete, KeysOk]
  | cons p rest ih =>
      obtain ⟨k0, v0⟩ := p
      simp only [KeysOk, List.all_cons, Bool.and_eq_true] at h
      by_cases h0 : k0 = k
      · simpa [mapDelete, h0, KeysOk] using h.2
      · simp only [mapDelete, if_neg h0, KeysOk, List.all_cons, Bool.and_eq_true]
        exact ⟨h.1, ih h.2⟩

theorem keysOk_filter (m : TicketMap) (f : String × TicketRecord → Bool)
    (h : KeysOk m = true) : KeysOk (m.filter f) = true := by
  simp only [KeysOk, List.all_eq_true] at h ⊢
  intro p hp
  exact h p (List.mem_of_mem_filter hp)

/-- Documents whose entries carry no conflicting channel id: the stored
`channelId` is absent, empty, or equal to the entry's key.  Every
document produced by `serializeMap` of a key-consistent map is of this
form; a hand-edited file need not be. -/
def StoredOk (doc : List (String × StoredTicket)) : Prop :=
  ∀ p ∈ doc, p.2.channelId = none ∨ p.2.channelId = some "" ∨ p.2.channelId = some p.1

theorem keysOk_loadTickets (doc : List (String × StoredTicket))
    (h : StoredOk doc) : KeysOk (loadTickets doc) = true := by
  simp only [KeysOk, List.all_eq_true, loadTickets, List.mem_map]
  rintro p ⟨q, hq, rfl⟩
  rcases h q hq with h1 | h1 | h1 <;> simp [loadStored, h1]

theorem storedOk_serializeMap (m : TicketMap) (h : KeysOk m = true) :
    StoredOk (serializeMap m) := by
  simp only [StoredOk, serializeMap, List.mem_map]
  rintro p ⟨q, hq, rfl⟩
  have := List.all_eq_true.mp h q hq
  right; right
  simpa [serializeTicket] using this

theorem closeTicketOp_fst (st : SysState) (c : String) :
    (closeTicketOp st c).1 = st := by
  by_cases h : mapHas st.tickets c <;> simp [closeTicketOp, h]

theorem keysOk_closeConfirmedOp (st : SysState) (c u : String) (now : Nat)
    (h : KeysOk st.tickets = true) :
    KeysOk (closeTicketConfirmedOp st c u now).1.tickets = true := by
  cases hget : mapGet st.tickets c with
  | none => simpa [closeTicketConfirmedOp, hget] using h
  | some t =>
      have hc : t.channelId = c := keysOk_mem st.tickets h c t hget
      simp only [closeTicketConfirmedOp, hget]
      exact keysOk_mapSet st.tickets c _ h (by simpa using hc)

theorem keysOk_reopenOp (st : SysState) (c u : String) (now : Nat)
    (h : KeysOk st.tickets = true) :
    KeysOk (reopenTicketOp st c u now).1.tickets = true := by
  cases hget : mapGet st.tickets c with
  | none => simpa [reopenTicketOp, hget] using h
  | some t =>
      have hc : t.channelId = c := keysOk_mem st.tickets h c t hget
      simp only [reopenTicketOp, hget]
      exact keysOk_mapSet st.tickets c _ h (by simpa using hc)

theorem keysOk_deleteOp (st : SysState) (c : String)
    (h : KeysOk st.tickets = true) :
    KeysOk (deleteTicketOp st c).1.tickets = true := by
  by_cases hh : mapHas st.tickets c
  · simp only [deleteTicketOp, if_pos hh]
    exact keysOk_mapDelete st.tickets c h
  · simpa [deleteTicketOp, hh] using h

theorem keysOk_handleButton (cfg : StaffRoles) (st : SysState) (b : Btn)
    (a : Actor) (c : String) (now : Nat) (h : KeysOk st.tickets = true) :
    KeysOk (handleButton cfg st b a c now).1.tickets = true := by
  cases b with
  | closeConfirm => exact keysOk_closeConfirmedOp st c a.userId now h
  | closeCancel => simpa [handleButton, closeTicketCancelledOp] using h
  | close =>
      cases hget : mapGet st.tickets c with
      | none => simpa [handleButton, hget] using h
      | some t =>
          simp only [handleButton, hget]
          by_cases hstaff : isStaffFor cfg a t.category = false
          · have hcond : Btn.close ≠ Btn.transcript ∧ isStaffFor cfg a t.category = false :=
              ⟨by decide, hstaff⟩
            rw [if_pos hcond]
            simpa using h
          · rw [if_neg (fun hc => hstaff hc.2)]
            simpa [closeTicketOp_fst] using h
  | delete =>
      cases hget : mapGet st.tickets c with
      | none => simpa [handleButton, hget] using h
      | some t =>
          simp only [handleButton, hget]
          by_cases hstaff : isStaffFor cfg a t.category = false
          · have hcond : Btn.delete ≠ Btn.transcript ∧ isStaffFor cfg a t.category = false :=
              ⟨by decide, hstaff⟩
            rw [if_pos hcond]
            simpa using h
          · rw [if_neg (fun hc => hstaff hc.2)]
            exact keysOk_deleteOp st c h
  | reopen =>
      cases hget : mapGet st.tickets c with
      | none => simpa [handleButton, hget] using h
      | some t =>
          simp only [handleButton, hget]
          by_cases hstaff : isStaffFor cfg a t.category = false
          · have hcond : Btn.reopen ≠ Btn.transcript ∧ isStaffFor cfg a t.category = false :=
              ⟨by decide, hstaff⟩
            rw [if_pos hcond]
            simpa using h
          · rw [if_neg (fun hc => hstaff hc.2)]
            exact keysOk_reopenOp st c a.userId now h
  | transcript =>
      cases hget : mapGet st.tickets c with
      | none => simpa [handleButton, hget] using h
      | some t =>
          simp only [handleButton, hget]
          rw [if_neg (fun hc => by exact absurd rfl hc.1)]
          simpa using h

theorem keysOk_createOp (opts : TicketOptions) (st : SysState)
    (u ty ch : String) (now : Nat) (fd : Option String)
    (h : KeysOk st.tickets = true) :
    KeysOk (createTicketOp opts st u ty ch now fd).1.tickets = true := by
  by_cases h1 : (userOpenTickets st.tickets u).length ≥ maxTotal opts
  · simpa [createTicketOp, h1] using h
  · by_cases h2 : (userOpenTicketsOfType st.tickets u ty).length ≥ maxPerType opts
    · simpa [createTicketOp, h1, h2] using h
    · simp only [createTicketOp, if_neg h1, if_neg h2]
      exact keysOk_mapSet st.tickets ch _ h rfl

theorem keysOk_registerOp (st : SysState) (a : Actor) (ch u ty : String)
    (now : Nat) (h : KeysOk st.tickets = true) :
    KeysOk (registerTicketOp st a ch u ty now).1.tickets = true := by
  simp only [registerTicketOp]
  by_cases h1 : a.isAdmin = false
  · rw [if_pos h1]
    exact h
  · rw [if_neg h1]
    by_cases h2 : (["support", "joinTeam", "bookUs", "partnership", "founders", "hr"].contains ty) = false
    · rw [if_pos h2]
      exact h
    · rw [if_neg h2]
      by_cases h3 : mapHas st.tickets ch = true
      · rw [if_pos h3]
        exact h
      · rw [if_neg h3]
        exact keysOk_mapSet st.tickets ch _ h rfl

/-- Registry states reachable by the system: start from
`loadActiveTickets` applied to a persistence document satisfying `P`
(with fresh permissions and nothing yet written by this process), then
any sequence of router button events, creations, manual registrations,
and the startup sweep.  `P := fun _ => True` describes every possible
start; `P := StoredOk` restricts to documents without a conflicting
stored channel id, which is what the system's own saves produce. -/
inductive ReachF (P : List (String × StoredTicket) → Prop) : SysState → Prop
  | load (doc : List (String × StoredTicket)) (h : P doc) :
      ReachF P { tickets := loadTickets doc, perms := [], disk := none }
  | button (cfg : StaffRoles) (st : SysState) (b : Btn) (a : Actor)
      (c : String) (now : Nat) :
      ReachF P st → ReachF P (handleButton cfg st b a c now).1
  | create (opts : TicketOptions) (st : SysState) (u ty ch : String)
      (now : Nat) (fd : Option String) :
      ReachF P st → ReachF P (createTicketOp opts st u ty ch now fd).1
  | register (st : SysState) (a : Actor) (ch u ty : String) (now : Nat) :
      ReachF P st → ReachF P (registerTicketOp st a ch u ty now).1
  | prune (st : SysState) (live : List String) :
      ReachF P st → ReachF P (pruneOp st live)

theorem handleButton_absent (cfg : StaffRoles) (st : SysState) (b : Btn)
    (a : Actor) (c : String) (now : Nat)
    (hb : b = Btn.close ∨ b = Btn.delete ∨ b = Btn.reopen ∨ b = Btn.transcript)
    (hget : mapGet st.tickets c = none) :
    handleButton cfg st b a c now = (st, Reply.notATicket) := by
  rcases hb with rfl | rfl | rfl | rfl <;> simp [handleButton, hget]

theorem handleButton_close_eq (cfg : StaffRoles) (st : SysState) (a : Actor)
    (c : String) (now : Nat) (t : TicketRecord)
    (hget : mapGet st.tickets c = some t)
    (hstaff : isStaffFor cfg a t.category = true) :
    handleButton cfg st Btn.close a c now = closeTicketOp st c := by
  simp only [handleButton, hget]
  rw [if_neg (fun hc => by rw [hstaff] at hc; exact absurd hc.2 (by decide))]

theorem handleButton_delete_eq (cfg : StaffRoles) (st : SysState) (a : Actor)
    (c : String) (now : Nat) (t : TicketRecord)
    (hget : mapGet st.tickets c = some t)
    (hstaff : isStaffFor cfg a t.category = true) :
    handleButton cfg st Btn.delete a c now = deleteTicketOp st c := by
  simp only [handleButton, hget]
  rw [if_neg (fun hc => by rw [hstaff] at hc; exact absurd hc.2 (by decide))]

theorem handleButton_reopen_eq (cfg : StaffRoles) (st : SysState) (a : Actor)
    (c : String) (now : Nat) (t : TicketRecord)
    (hget : mapGet st.tickets c = some t)
    (hstaff : isStaffFor cfg a t.category = true) :
    handleButton cfg st Btn.reopen a c now = reopenTicketOp st c a.userId now := by
  simp only [handleButton, hget]
  rw [if_neg (fun hc => by rw [hstaff] at hc; exact absurd hc.2 (by decide))]

theorem handleButton_notStaff (cfg : StaffRoles) (st : SysState) (b : Btn)
    (a : Actor) (c : String) (now : Nat) (t : TicketRecord)
    (hb : b = Btn.close ∨ b = Btn.delete ∨ b = Btn.reopen)
    (hget : mapGet st.tickets c = some t)
    (hstaff : isStaffFor cfg a t.category = false) :
    handleButton cfg st b a c now = (st, Reply.notStaff) := by
  rcases hb with rfl | rfl | rfl <;>
  · simp only [handleButton, hget]
    rw [if_pos (by exact ⟨by decide, hstaff⟩)]

theorem handleButton_transcript_eq (cfg : StaffRoles) (st : SysState)
    (a : Actor) (c : String) (now : Nat) (t : TicketRecord)
    (hget : mapGet st.tickets c = some t) :
    handleButton cfg st Btn.transcript a c now = (st, Reply.transcriptOk) := by
  simp only [handleButton, hget]
  rw [if_neg (fun hc => absurd rfl hc.1)]

theorem closeTicketOp_has (st : SysState) (c : String)
    (h : mapHas st.tickets c = true) :
    closeTicketOp st c = (st, Reply.closePrompt) := by
  simp [closeTicketOp, h]

theorem closeConfirmedOp_eq (st : SysState) (c u : String) (now : Nat)
    (t : TicketRecord) (hget : mapGet st.tickets c = some t) :
    closeTicketConfirmedOp st c u now =
      ({ st with
          perms := permSet st.perms c t.userId false
          tickets := mapSet st.tickets c
            { t with closed := some true, closedAt := some now, closedBy := some u }
          disk := some (serializeMap (mapSet st.tickets c
            { t with closed := some true, closedAt := some now, closedBy := some u })) },
        Reply.closedOk) := by
  simp [closeTicketConfirmedOp, hget]

theorem reopenOp_eq (st : SysState) (c u : String) (now : Nat)
    (t : TicketRecord) (hget : mapGet st.tickets c = some t) :
    reopenTicketOp st c u now =
      ({ st with
          perms := permSet st.perms c t.userId true
          tickets := mapSet st.tickets c
            { t with closed := some false, reopenedAt := some now, reopenedBy := some u }
          disk := some (serializeMap (mapSet st.tickets c
            { t with closed := some false, reopenedAt := some now, reopenedBy := some u })) },
        Reply.reopenedOk) := by
  simp [reopenTicketOp, hget]

theorem deleteOp_eq (st : SysState) (c : String)
    (h : mapHas st.tickets c = true) :
    deleteTicketOp st c =
      ({ st with
          tickets := mapDelete st.tickets c
          disk := some (serializeMap (mapDelete st.tickets c)) },
        Reply.deletedOk) := by
  simp [deleteTicketOp, h]

theorem mapGet_isSome_of_mem (m : TicketMap) (k : String) (v : TicketRecord)
    (h : (k, v) ∈ m) : (mapGet m k).isSome = true := by
  induction m with
  | nil => simp at h
  | cons p rest ih =>
      obtain ⟨k0, v0⟩ := p
      rcases List.mem_cons.mp h with he | hm
      · injection he with h1 h2
        simp [mapGet, h1.symm]
      · by_cases h0 : k0 = k
        · simp [mapGet, h0]
        · simp only [mapGet, if_neg h0]
          exact ih hm

/-- Claim C1: for every sequence of save calls, physical writes never
interleave — requests are queued and executed strictly one at a time in
enqueue order (the log of completed whole-file writes equals the call
sequence, serialized, in call order), each caller's promise is resolved
only after that request's write completes (at quiescence the number of
resolutions equals the number of calls, and the invariant ties each
resolution to its own completed write), and once all N concurrent saves
have settled, the on-disk content is the serialization of the
last-enqueued snapshot. -/
theorem claim_C1_save_serialization (cs : List TicketMap) (st : SaveSystem)
    (h : SaveRun initSave cs st) (hq : Quiescent st) :
    st.writeLog = cs.map serializeMap ∧
    st.resolved = cs.length ∧
    st.disk = (cs.map serializeMap).getLast? := by
  obtain ⟨h1, h2, h3, h4, h5, h6⟩ := saveRun_inv cs st h
  obtain ⟨hq1, hq2, hq3⟩ := hq
  rw [hq1, hq2] at h4
  simp at h4
  refine ⟨h4, ?_, ?_⟩
  · rw [h5, h4, List.length_map]
  · rw [h6, h4]

/-- Sample record used by the concrete witnesses. -/
def wRecA : TicketRecord :=
  { channelId := "100000000000000001"
    userId := "u1"
    category := "support"
    createdAt := some 5
    closed := none
    closedAt := none
    closedBy := none
    reopenedAt := none
    reopenedBy := none
    manuallyRegistered := none
    formData := none }

/-- First snapshot enqueued by the C1 witness. -/
def wMap1 : TicketMap := []

/-- Second snapshot enqueued by the C1 witness. -/
def wMap2 : TicketMap := [("100000000000000001", wRecA)]

/-- Final state of the C1 witness run: two saves arrive while the first
write is still in flight, then everything drains. -/
def wSaveFinal : SaveSystem :=
  timerFire (finishWrite (timerFire (finishWrite
    (saveCall (saveCall initSave wMap1) wMap2) wMap1)) wMap2)

/-- Witness for C1: a concrete two-call run, fully drained. -/
theorem claim_C1_witness :
    wSaveFinal.writeLog = [wMap1, wMap2].map serializeMap ∧
    wSaveFinal.resolved = 2 ∧
    wSaveFinal.disk = ([wMap1, wMap2].map serializeMap).getLast? := by
  have hrun : SaveRun initSave [wMap1, wMap2] wSaveFinal :=
    SaveRun.timer _ _
      (SaveRun.finish _ _ wMap2
        (SaveRun.timer _ _
          (SaveRun.finish _ _ wMap1
            (SaveRun.call [wMap1] _ wMap2 (SaveRun.call [] _ wMap1 SaveRun.refl))
            (by decide))
          (by decide))
        (by decide))
      (by decide)
  exact claim_C1_save_serialization [wMap1, wMap2] wSaveFinal hrun ⟨rfl, rfl, rfl⟩

/-- Claim C8: saving the registry and loading it back yields records
whose timestamp fields (`createdAt`, `closedAt`, `reopenedAt`) denote the
same instants as the originals — exactly, hence in particular when
compared at second precision (`· / 1000` on milliseconds). -/
theorem claim_C8_roundtrip (m : TicketMap) (k : String) (r : TicketRecord)
    (h : mapGet m k = some r) :
    ∃ r2, mapGet (loadTickets (serializeMap m)) k = some r2 ∧
      r2.createdAt = r.createdAt ∧
      r2.closedAt = r.closedAt ∧
      r2.reopenedAt = r.reopenedAt ∧
      r2.createdAt.map (fun ms => ms / 1000) = r.createdAt.map (fun ms => ms / 1000) ∧
      r2.closedAt.map (fun ms => ms / 1000) = r.closedAt.map (fun ms => ms / 1000) ∧
      r2.reopenedAt.map (fun ms => ms / 1000) = r.reopenedAt.map (fun ms => ms / 1000) := by
  refine ⟨{ r with channelId := if r.channelId = "" then k else r.channelId },
    ?_, rfl, rfl, rfl, rfl, rfl, rfl⟩
  rw [loadTickets_serializeMap m k, h]
  rfl

/-- Sample record with all three timestamps populated. -/
def wRecB : TicketRecord :=
  { channelId := "200000000000000002"
    userId := "u2"
    category := "bookUs"
    createdAt := some 1700000000123
    closed := some false
    closedAt := some 1700000500456
    closedBy := some "u3"
    reopenedAt := some 1700000900789
    reopenedBy := some "u4"
    manuallyRegistered := none
    formData := some "payload" }

/-- Witness for C8: the round trip evaluated on a concrete one-entry map
with all three timestamps present. -/
theorem claim_C8_witness :
    ∃ r2, mapGet (loadTickets (serializeMap [("200000000000000002", wRecB)]))
        "200000000000000002" = some r2 ∧
      r2.createdAt = wRecB.createdAt ∧
      r2.closedAt = wRecB.closedAt ∧
      r2.reopenedAt = wRecB.reopenedAt ∧
      r2.createdAt.map (fun ms => ms / 1000) = wRecB.createdAt.map (fun ms => ms / 1000) ∧
      r2.closedAt.map (fun ms => ms / 1000) = wRecB.closedAt.map (fun ms => ms / 1000) ∧
      r2.reopenedAt.map (fun ms => ms / 1000) = wRecB.reopenedAt.map (fun ms => ms / 1000) :=
  claim_C8_roundtrip [("200000000000000002", wRecB)] "200000000000000002" wRecB (by decide)

/-- Claim C2: on a registered ticket, performing close-request, then
confirm, then reopen (each step routed as the code routes it, the staff
actions by staff actors, at strictly increasing clock readings) yields a
record with the closed flag false, `closedAt` and `reopenedAt` both
populated with `closedBy`/`reopenedBy` set to the acting users, and with
`reopenedAt` strictly greater than `closedAt`. -/
theorem claim_C2_close_confirm_reopen (cfg : StaffRoles) (st : SysState)
    (c : String) (t : TicketRecord) (a1 a2 : Actor) (n1 n2 : Nat)
    (hget : mapGet st.tickets c = some t)
    (hstaff1 : isStaffFor cfg a1 t.category = true)
    (hstaff2 : isStaffFor cfg a2 t.category = true)
    (htime : n1 < n2) :
    ∃ r : TicketRecord,
      mapGet (handleButton cfg
          (handleButton cfg
            (handleButton cfg st Btn.close a1 c n1).1
            Btn.closeConfirm a1 c n1).1
          Btn.reopen a2 c n2).1.tickets c = some r ∧
      r.isClosed = false ∧
      r.closedAt = some n1 ∧
      r.reopenedAt = some n2 ∧
      r.closedBy = some a1.userId ∧
      r.reopenedBy = some a2.userId ∧
      (∀ x y, r.closedAt = some x → r.reopenedAt = some y → x < y) := by
  have e1 : (handleButton cfg st Btn.close a1 c n1).1 = st := by
    rw [handleButton_close_eq cfg st a1 c n1 t hget hstaff1, closeTicketOp_fst]
  rw [e1]
  have e2 : handleButton cfg st Btn.closeConfirm a1 c n1 =
      closeTicketConfirmedOp st c a1.userId n1 := rfl
  rw [e2, closeConfirmedOp_eq st c a1.userId n1 t hget]
  have hget2 : mapGet (mapSet st.tickets c
      { t with closed := some true, closedAt := some n1, closedBy := some a1.userId }) c =
      some { t with closed := some true, closedAt := some n1, closedBy := some a1.userId } :=
    mapGet_mapSet_self _ _ _
  rw [handleButton_reopen_eq cfg _ a2 c n2
    { t with closed := some true, closedAt := some n1, closedBy := some a1.userId }
    hget2 (by exact hstaff2)]
  rw [reopenOp_eq _ c a2.userId n2 _ hget2]
  refine ⟨_, mapGet_mapSet_self _ _ _, rfl, rfl, rfl, rfl, rfl, ?_⟩
  intro x y hx hy
  have hx1 : n1 = x := by
    simpa using hx
  have hy1 : n2 = y := by
    simpa using hy
  omega

/-- Actors used by the concrete witnesses: a staff member holding the
configured support role, a second staff member, and an outsider with no
roles and no administrator bit. -/
def wStaff1 : Actor :=
  { userId := "800000000000000008"
    isAdmin := false
    roles := ["500000000000000005"] }

/-- Second staff actor for the witnesses. -/
def wStaff2 : Actor :=
  { userId := "800000000000000009"
    isAdmin := false
    roles := ["500000000000000005"] }

/-- Non-staff, non-admin actor for the authorization scenarios. -/
def wOutsider : Actor :=
  { userId := "800000000000000001"
    isAdmin := false
    roles := [] }

/-- Staff-role configuration used by the witnesses: the support category
is handled by one configured role. -/
def wCfg : StaffRoles :=
  { hr := RoleCfg.absent
    bookings := RoleCfg.absent
    support := RoleCfg.single "500000000000000005"
    partnership := RoleCfg.absent
    founders := RoleCfg.absent }

/-- System state holding the single open support ticket `wRecA`. -/
def wState : SysState :=
  { tickets := [("100000000000000001", wRecA)]
    perms := []
    disk := none }

/-- Witness for C2: the three-step scenario on the concrete state. -/
theorem claim_C2_witness :
    ∃ r : TicketRecord,
      mapGet (handleButton wCfg
          (handleButton wCfg
            (handleButton wCfg wState Btn.close wStaff1 "100000000000000001" 10).1
            Btn.closeConfirm wStaff1 "100000000000000001" 10).1
          Btn.reopen wStaff2 "100000000000000001" 20).1.tickets
        "100000000000000001" = some r ∧
      r.isClosed = false ∧
      r.closedAt = some 10 ∧
      r.reopenedAt = some 20 ∧
      r.closedBy = some wStaff1.userId ∧
      r.reopenedBy = some wStaff2.userId ∧
      (∀ x y, r.closedAt = some x → r.reopenedAt = some y → x < y) :=
  claim_C2_close_confirm_reopen wCfg wState "100000000000000001" wRecA
    wStaff1 wStaff2 10 20 (by decide) (by decide) (by decide) (by decide)

/-- Claim C7: on an open registered ticket, a close-request followed by a
cancel posts the prompt and then dismisses it, returning a state equal to
the original in every component — the record is exactly as it was, its
closed flag still false and `closedAt` untouched. -/
theorem claim_C7_close_cancel_frame (cfg : StaffRoles) (st : SysState)
    (c : String) (t : TicketRecord) (a : Actor) (n1 n2 : Nat)
    (hget : mapGet st.tickets c = some t)
    (hopen : t.isClosed = false)
    (hstaff : isStaffFor cfg a t.category = true) :
    handleButton cfg st Btn.close a c n1 = (st, Reply.closePrompt) ∧
    handleButton cfg (handleButton cfg st Btn.close a c n1).1
        Btn.closeCancel a c n2 = (st, Reply.cancelledOk) ∧
    (handleButton cfg (handleButton cfg st Btn.close a c n1).1
        Btn.closeCancel a c n2).1 = st ∧
    mapGet (handleButton cfg (handleButton cfg st Btn.close a c n1).1
        Btn.closeCancel a c n2).1.tickets c = some t ∧
    t.isClosed = false := by
  have e1 : handleButton cfg st Btn.close a c n1 = (st, Reply.closePrompt) := by
    rw [handleButton_close_eq cfg st a c n1 t hget hstaff]
    exact closeTicketOp_has st c (by simp [mapHas, hget])
  refine ⟨e1, ?_, ?_, ?_, hopen⟩
  · rw [e1]
    rfl
  · rw [e1]
    rfl
  · rw [e1]
    exact hget

/-- Witness for C7: close-request then cancel on the concrete state. -/
theorem claim_C7_witness :
    handleButton wCfg wState Btn.close wStaff1 "100000000000000001" 10 =
      (wState, Reply.closePrompt) ∧
    handleButton wCfg
        (handleButton wCfg wState Btn.close wStaff1 "100000000000000001" 10).1
        Btn.closeCancel wStaff1 "100000000000000001" 11 = (wState, Reply.cancelledOk) ∧
    (handleButton wCfg
        (handleButton wCfg wState Btn.close wStaff1 "100000000000000001" 10).1
        Btn.closeCancel wStaff1 "100000000000000001" 11).1 = wState ∧
    mapGet (handleButton wCfg
        (handleButton wCfg wState Btn.close wStaff1 "100000000000000001" 10).1
        Btn.closeCancel wStaff1 "100000000000000001" 11).1.tickets
      "100000000000000001" = some wRecA ∧
    wRecA.isClosed = false :=
  claim_C7_close_cancel_frame wCfg wState "100000000000000001" wRecA
    wStaff1 10 11 (by decide) (by decide) (by decide)

/-- Claim C4: creation counts only the user's open (non-closed) tickets;
with no configuration the caps default to 10 (total) and 3
(per-category); a request is denied with the total-cap message when the
user is at or above the total cap, denied with the per-category message
when below the total cap but at or above the per-category cap of the
requested category, and otherwise succeeds, inserting the new open
record; the two denials are distinct replies identifying which cap was
hit, and the registry is unchanged on denial. -/
theorem claim_C4_quota (opts : TicketOptions) (st : SysState)
    (u ty ch : String) (now : Nat) (fd : Option String) :
    maxTotal { maxTicketsPerUser := none, maxTicketsPerUserPerType := none } = 10 ∧
    maxPerType { maxTicketsPerUser := none, maxTicketsPerUserPerType := none } = 3 ∧
    Reply.quotaTotalHit ≠ Reply.quotaPerTypeHit ∧
    ((userOpenTickets st.tickets u).length ≥ maxTotal opts →
      createTicketOp opts st u ty ch now fd = (st, Reply.quotaTotalHit)) ∧
    ((userOpenTickets st.tickets u).length < maxTotal opts →
      (userOpenTicketsOfType st.tickets u ty).length ≥ maxPerType opts →
      createTicketOp opts st u ty ch now fd = (st, Reply.quotaPerTypeHit)) ∧
    ((userOpenTickets st.tickets u).length < maxTotal opts →
      (userOpenTicketsOfType st.tickets u ty).length < maxPerType opts →
      (createTicketOp opts st u ty ch now fd).2 = Reply.createdOk ∧
      mapGet (createTicketOp opts st u ty ch now fd).1.tickets ch = some
        { channelId := ch
          userId := u
          category := ty
          createdAt := some now
          closed := none
          closedAt := none
          closedBy := none
          reopenedAt := none
          reopenedBy := none
          manuallyRegistered := none
          formData := fd }) := by
  refine ⟨rfl, rfl, by decide, ?_, ?_, ?_⟩
  · intro h1
    simp [createTicketOp, h1]
  · intro h1 h2
    simp [createTicketOp, Nat.not_le.mpr h1, h2]
  · intro h1 h2
    have e : createTicketOp opts st u ty ch now fd =
        ({ st with
            tickets := mapSet st.tickets ch
              { channelId := ch
                userId := u
                category := ty
                createdAt := some now
                closed := none
                closedAt := none
                closedBy := none
                reopenedAt := none
                reopenedBy := none
                manuallyRegistered := none
                formData := fd }
            perms := permSet st.perms ch u true
            disk := some (serializeMap (mapSet st.tickets ch
              { channelId := ch
                userId := u
                category := ty
                createdAt := some now
                closed := none
                closedAt := none
                closedBy := none
                reopenedAt := none
                reopenedBy := none
                manuallyRegistered := none
                formData := fd })) }, Reply.createdOk) := by
      simp [createTicketOp, Nat.not_le.mpr h1, Nat.not_le.mpr h2]
    rw [e]
    exact ⟨rfl, mapGet_mapSet_self _ _ _⟩

/-- Three open support tickets of the same user, for the quota witness. -/
def wSupportRec (n : Nat) : TicketRecord :=
  { channelId := toString n
    userId := "u1"
    category := "support"
    createdAt := some n
    closed := none
    closedAt := none
    closedBy := none
    reopenedAt := none
    reopenedBy := none
    manuallyRegistered := none
    formData := none }

/-- State in which user u1 holds exactly 3 open support tickets and no
others. -/
def wQuotaState : SysState :=
  { tickets := [("1", wSupportRec 1), ("2", wSupportRec 2), ("3", wSupportRec 3)]
    perms := []
    disk := none }

/-- Default options: both caps unset, so the fallbacks 10 and 3 apply. -/
def wOpts : TicketOptions :=
  { maxTicketsPerUser := none
    maxTicketsPerUserPerType := none }

/-- Witness for C4: with 3 open support tickets and 0 hr tickets, a 4th
support ticket is denied on the per-category cap while an hr ticket is
created. -/
theorem claim_C4_witness :
    createTicketOp wOpts wQuotaState "u1" "support" "90" 50 none =
      (wQuotaState, Reply.quotaPerTypeHit) ∧
    (createTicketOp wOpts wQuotaState "u1" "hr" "90" 50 none).2 = Reply.createdOk := by
  refine ⟨(claim_C4_quota wOpts wQuotaState "u1" "support" "90" 50 none).2.2.2.2.1
      (by decide) (by decide),
    ((claim_C4_quota wOpts wQuotaState "u1" "hr" "90" 50 none).2.2.2.2.2
      (by decide) (by decide)).1⟩

/-- Open support ticket owned by a third user, target of the
authorization scenarios. -/
def wOpenRec : TicketRecord :=
  { channelId := "300000000000000003"
    userId := "700000000000000007"
    category := "support"
    createdAt := some 1
    closed := none
    closedAt := none
    closedBy := none
    reopenedAt := none
    reopenedBy := none
    manuallyRegistered := none
    formData := none }

/-- State holding only `wOpenRec`. -/
def wAuthState : SysState :=
  { tickets := [("300000000000000003", wOpenRec)]
    perms := []
    disk := none }

/-- Counterexample to claim C3 as stated: `wOutsider` holds no
administrative privilege and none of the staff roles of the ticket's
category, yet the confirm transition is not denied — the router
dispatches `ticket_close_confirm` with no staff check, the ticket is
closed and the closure attributed to the outsider, mutating the
record. -/
theorem claim_C3_counterexample :
    isStaffFor wCfg wOutsider wOpenRec.category = false ∧
    wOutsider.isAdmin = false ∧
    (handleButton wCfg wAuthState Btn.closeConfirm wOutsider
      "300000000000000003" 77).2 = Reply.closedOk ∧
    mapGet (handleButton wCfg wAuthState Btn.closeConfirm wOutsider
        "300000000000000003" 77).1.tickets "300000000000000003" =
      some { wOpenRec with
        closed := some true
        closedAt := some 77
        closedBy := some "800000000000000001" } ∧
    (handleButton wCfg wAuthState Btn.closeConfirm wOutsider
        "300000000000000003" 77).1.tickets ≠ wAuthState.tickets := by
  refine ⟨by decide, rfl, rfl, ?_, by decide⟩
  rw [show handleButton wCfg wAuthState Btn.closeConfirm wOutsider "300000000000000003" 77 =
      closeTicketConfirmedOp wAuthState "300000000000000003" wOutsider.userId 77 from rfl]
  rw [closeConfirmedOp_eq wAuthState "300000000000000003" wOutsider.userId 77 wOpenRec (by decide)]
  exact mapGet_mapSet_self _ _ _

/-- Claim C3 as amended: an actor with no administrative privilege and
no staff role of the ticket's category is denied on the close-request,
reopen and delete transitions with the registry, permissions and disk
unchanged; the confirm transition, by contrast, carries no authorization
check at all — it proceeds for any actor, closing the ticket on their
behalf. -/
theorem claim_C3_amended (cfg : StaffRoles) (st : SysState) (c : String)
    (t : TicketRecord) (a : Actor) (now : Nat)
    (hget : mapGet st.tickets c = some t)
    (hstaff : isStaffFor cfg a t.category = false) :
    handleButton cfg st Btn.reopen a c now = (st, Reply.notStaff) ∧
    handleButton cfg st Btn.delete a c now = (st, Reply.notStaff) ∧
    handleButton cfg st Btn.close a c now = (st, Reply.notStaff) ∧
    (handleButton cfg st Btn.closeConfirm a c now).2 = Reply.closedOk ∧
    mapGet (handleButton cfg st Btn.closeConfirm a c now).1.tickets c =
      some { t with closed := some true, closedAt := some now, closedBy := some a.userId } := by
  refine ⟨handleButton_notStaff cfg st Btn.reopen a c now t (by simp) hget hstaff,
    handleButton_notStaff cfg st Btn.delete a c now t (by simp) hget hstaff,
    handleButton_notStaff cfg st Btn.close a c now t (by simp) hget hstaff, ?_, ?_⟩
  · rw [show handleButton cfg st Btn.closeConfirm a c now =
        closeTicketConfirmedOp st c a.userId now from rfl]
    rw [closeConfirmedOp_eq st c a.userId now t hget]
  · rw [show handleButton cfg st Btn.closeConfirm a c now =
        closeTicketConfirmedOp st c a.userId now from rfl]
    rw [closeConfirmedOp_eq st c a.userId now t hget]
    exact mapGet_mapSet_self _ _ _

/-- Witness for the amended C3 on the concrete outsider scenario. -/
theorem claim_C3_witness :
    handleButton wCfg wAuthState Btn.reopen wOutsider "300000000000000003" 77 =
      (wAuthState, Reply.notStaff) ∧
    handleButton wCfg wAuthState Btn.delete wOutsider "300000000000000003" 77 =
      (wAuthState, Reply.notStaff) ∧
    handleButton wCfg wAuthState Btn.close wOutsider "300000000000000003" 77 =
      (wAuthState, Reply.notStaff) ∧
    (handleButton wCfg wAuthState Btn.closeConfirm wOutsider
      "300000000000000003" 77).2 = Reply.closedOk ∧
    mapGet (handleButton wCfg wAuthState Btn.closeConfirm wOutsider
        "300000000000000003" 77).1.tickets "300000000000000003" =
      some { wOpenRec with
        closed := some true
        closedAt := some 77
        closedBy := some wOutsider.userId } :=
  claim_C3_amended wCfg wAuthState "300000000000000003" wOpenRec wOutsider 77
    (by decide) (by decide)

/-- Empty system state. -/
def wEmptyState : SysState :=
  { tickets := []
    perms := []
    disk := none }

/-- Counterexample to claim C6 as stated: the confirm transition on a
channel with no record does not report NotATicket — the undefined
dereference is caught and a generic error is reported instead (no side
effect occurs); the cancel transition does not report NotATicket either,
it simply dismisses the prompt. -/
theorem claim_C6_counterexample :
    mapGet wEmptyState.tickets "nochan" = none ∧
    (handleButton wCfg wEmptyState Btn.closeConfirm wOutsider "nochan" 0).2 ≠
      Reply.notATicket ∧
    handleButton wCfg wEmptyState Btn.closeConfirm wOutsider "nochan" 0 =
      (wEmptyState, Reply.genericError) ∧
    (handleButton wCfg wEmptyState Btn.closeCancel wOutsider "nochan" 0).2 ≠
      Reply.notATicket := by
  decide

/-- Claim C6 as amended: a transition requested for a channel with no
matching record performs no side effect — registry, permissions and
persisted map all unchanged — and, for the four dispatched
ticket-management operations (close-request, delete, reopen,
transcript), it is reported to the caller as NotATicket; the
close-confirmation path instead fails with a generic error, and the
cancel path merely dismisses the prompt, both still without side
effect. -/
theorem claim_C6_amended (cfg : StaffRoles) (st : SysState) (b : Btn)
    (a : Actor) (c : String) (now : Nat)
    (hget : mapGet st.tickets c = none) :
    ((b = Btn.close ∨ b = Btn.delete ∨ b = Btn.reopen ∨ b = Btn.transcript) →
      handleButton cfg st b a c now = (st, Reply.notATicket)) ∧
    handleButton cfg st Btn.closeConfirm a c now = (st, Reply.genericError) ∧
    handleButton cfg st Btn.closeCancel a c now = (st, Reply.cancelledOk) := by
  refine ⟨fun hb => handleButton_absent cfg st b a c now hb hget, ?_, rfl⟩
  rw [show handleButton cfg st Btn.closeConfirm a c now =
      closeTicketConfirmedOp st c a.userId now from rfl]
  simp [closeTicketConfirmedOp, hget]

/-- Witness for the amended C6: all six buttons on an unregistered
channel of the empty state. -/
theorem claim_C6_witness :
    handleButton wCfg wEmptyState Btn.close wOutsider "nochan" 0 =
      (wEmptyState, Reply.notATicket) ∧
    handleButton wCfg wEmptyState Btn.closeConfirm wOutsider "nochan" 0 =
      (wEmptyState, Reply.genericError) ∧
    handleButton wCfg wEmptyState Btn.closeCancel wOutsider "nochan" 0 =
      (wEmptyState, Reply.cancelledOk) :=
  ⟨(claim_C6_amended wCfg wEmptyState Btn.close wOutsider "nochan" 0 (by decide)).1
      (Or.inl rfl),
   (claim_C6_amended wCfg wEmptyState Btn.closeConfirm wOutsider "nochan" 0 (by decide)).2.1,
   (claim_C6_amended wCfg wEmptyState Btn.closeCancel wOutsider "nochan" 0 (by decide)).2.2⟩

theorem serializeMap_not_mem (m : TicketMap) (c : String)
    (h : mapGet m c = none) (s : StoredTicket) : (c, s) ∉ serializeMap m := by
  intro hmem
  simp only [serializeMap, List.mem_map] at hmem
  obtain ⟨q, hq, he⟩ := hmem
  injection he with h1 h2
  subst h1
  have := mapGet_isSome_of_mem m q.1 q.2 (by simpa using hq)
  rw [h] at this
  simp at this

theorem closeConfirmedOp_absent (st : SysState) (c u : String) (now : Nat)
    (h : mapGet st.tickets c = none) :
    closeTicketConfirmedOp st c u now = (st, Reply.genericError) := by
  simp [closeTicketConfirmedOp, h]

/-- Counterexample to claim C5 as stated: after a staff delete removes
the concrete ticket (the registry lookup now yields nothing), a
subsequent confirm transition for the same channel does not yield
NotATicket — the undefined dereference in `closeTicketConfirmed` is
caught and a generic error is reported instead. -/
theorem claim_C5_counterexample :
    (handleButton wCfg wAuthState Btn.delete wStaff1 "300000000000000003" 9).2 =
      Reply.deletedOk ∧
    mapGet (handleButton wCfg wAuthState Btn.delete wStaff1
      "300000000000000003" 9).1.tickets "300000000000000003" = none ∧
    (handleButton wCfg
        (handleButton wCfg wAuthState Btn.delete wStaff1 "300000000000000003" 9).1
        Btn.closeConfirm wStaff1 "300000000000000003" 10).2 = Reply.genericError ∧
    (handleButton wCfg
        (handleButton wCfg wAuthState Btn.delete wStaff1 "300000000000000003" 9).1
        Btn.closeConfirm wStaff1 "300000000000000003" 10).2 ≠ Reply.notATicket := by
  decide

/-- Claim C5 as amended: the delete transition (performed by a staff
actor on a registered ticket) removes the record entirely from the
registry and from the persisted map — no tombstone: the saved document
has no entry for the channel — and every subsequent lookup yields
nothing; every subsequent dispatched ticket-management transition
(close-request, delete, reopen, transcript) yields NotATicket, while a
subsequent confirm press fails with a generic error and a cancel merely
dismisses the prompt, all without side effect. -/
theorem claim_C5_amended (cfg : StaffRoles) (st : SysState) (c : String)
    (t : TicketRecord) (a : Actor) (now : Nat)
    (hget : mapGet st.tickets c = some t)
    (hstaff : isStaffFor cfg a t.category = true)
    (hnd : NodupKeys st.tickets) :
    (handleButton cfg st Btn.delete a c now).2 = Reply.deletedOk ∧
    mapGet (handleButton cfg st Btn.delete a c now).1.tickets c = none ∧
    mapHas (handleButton cfg st Btn.delete a c now).1.tickets c = false ∧
    (handleButton cfg st Btn.delete a c now).1.disk =
      some (serializeMap (handleButton cfg st Btn.delete a c now).1.tickets) ∧
    (∀ s : StoredTicket,
      (c, s) ∉ serializeMap (handleButton cfg st Btn.delete a c now).1.tickets) ∧
    (∀ b2 a2 now2, (b2 = Btn.close ∨ b2 = Btn.delete ∨ b2 = Btn.reopen ∨ b2 = Btn.transcript) →
      handleButton cfg (handleButton cfg st Btn.delete a c now).1 b2 a2 c now2 =
        ((handleButton cfg st Btn.delete a c now).1, Reply.notATicket)) ∧
    (∀ a2 now2,
      handleButton cfg (handleButton cfg st Btn.delete a c now).1
          Btn.closeConfirm a2 c now2 =
        ((handleButton cfg st Btn.delete a c now).1, Reply.genericError)) ∧
    (∀ a2 now2,
      handleButton cfg (handleButton cfg st Btn.delete a c now).1
          Btn.closeCancel a2 c now2 =
        ((handleButton cfg st Btn.delete a c now).1, Reply.cancelledOk)) := by
  have e1 : handleButton cfg st Btn.delete a c now =
      ({ st with
          tickets := mapDelete st.tickets c
          disk := some (serializeMap (mapDelete st.tickets c)) },
        Reply.deletedOk) := by
    rw [handleButton_delete_eq cfg st a c now t hget hstaff]
    exact deleteOp_eq st c (by simp [mapHas, hget])
  rw [e1]
  have hnone : mapGet (mapDelete st.tickets c) c = none :=
    mapGet_mapDelete_self st.tickets c hnd
  refine ⟨rfl, hnone, by simp [mapHas, hnone], rfl,
    fun s => serializeMap_not_mem _ c hnone s,
    fun b2 a2 now2 hb2 => handleButton_absent cfg _ b2 a2 c now2 hb2 hnone,
    fun a2 now2 => ?_, fun a2 now2 => rfl⟩
  rw [show handleButton cfg
      ({ st with
          tickets := mapDelete st.tickets c
          disk := some (serializeMap (mapDelete st.tickets c)) })
      Btn.closeConfirm a2 c now2 =
    closeTicketConfirmedOp
      ({ st with
          tickets := mapDelete st.tickets c
          disk := some (serializeMap (mapDelete st.tickets c)) })
      c a2.userId now2 from rfl]
  exact closeConfirmedOp_absent _ c a2.userId now2 hnone

/-- Witness for the amended C5: a staff delete of the concrete support
ticket, followed by a retry of the delete button and by a confirm
press, both on the now-unregistered channel. -/
theorem claim_C5_witness :
    (handleButton wCfg wAuthState Btn.delete wStaff1 "300000000000000003" 9).2 =
      Reply.deletedOk ∧
    mapGet (handleButton wCfg wAuthState Btn.delete wStaff1
      "300000000000000003" 9).1.tickets "300000000000000003" = none ∧
    handleButton wCfg
        (handleButton wCfg wAuthState Btn.delete wStaff1 "300000000000000003" 9).1
        Btn.delete wStaff1 "300000000000000003" 10 =
      ((handleButton wCfg wAuthState Btn.delete wStaff1 "300000000000000003" 9).1,
        Reply.notATicket) ∧
    handleButton wCfg
        (handleButton wCfg wAuthState Btn.delete wStaff1 "300000000000000003" 9).1
        Btn.closeConfirm wStaff1 "300000000000000003" 11 =
      ((handleButton wCfg wAuthState Btn.delete wStaff1 "300000000000000003" 9).1,
        Reply.genericError) := by
  have h := claim_C5_amended wCfg wAuthState "300000000000000003" wOpenRec wStaff1 9
    (by decide) (by decide) (by unfold NodupKeys; decide)
  exact ⟨h.1, h.2.1, h.2.2.2.2.2.1 Btn.delete wStaff1 10 (by simp),
    h.2.2.2.2.2.2.1 wStaff1 11⟩

/-- Configuration whose support entry is a single malformed role id. -/
def wBadCfg : StaffRoles :=
  { hr := RoleCfg.absent
    bookings := RoleCfg.absent
    support := RoleCfg.single "abc"
    partnership := RoleCfg.absent
    founders := RoleCfg.absent }

/-- Counterexample to claim C9 as stated: `getTicketRoles` does not
exclude malformed role identifiers — configured with the non-snowflake
id "abc" for the support category, it returns that id; only falsy
entries are filtered there (the `isValidSnowflake` exclusion happens
later, at the creation call sites). -/
theorem claim_C9_counterexample :
    getTicketRoles wBadCfg "support" = ["abc"] ∧
    isValidSnowflake "abc" = false := by
  decide

/-- Claim C9 as amended: `getTicketRoles` returns exactly the configured
staff-role set of the category with falsy entries removed and duplicates
removed (first occurrence kept); it does not itself exclude malformed
identifiers — those are excluded by the `isValidSnowflake` filter the
creation paths apply to its result (`visibleRoles`). -/
theorem claim_C9_amended (cfg : StaffRoles) (category : String) :
    (getTicketRoles cfg category).Nodup ∧
    (∀ r, r ∈ getTicketRoles cfg category ↔ (r ∈ rawRoles cfg category ∧ r ≠ "")) ∧
    (∀ r, r ∈ visibleRoles cfg category → isValidSnowflake r = true) := by
  refine ⟨nodup_jsSetDedup _, ?_, ?_⟩
  · intro r
    rw [getTicketRoles, mem_jsSetDedup, List.mem_filter]
    simp
  · intro r hr
    exact (List.mem_filter.mp hr).2

/-- Configuration with duplicated, falsy and malformed support entries,
for the C9 witness. -/
def wMixedCfg : StaffRoles :=
  { hr := RoleCfg.absent
    bookings := RoleCfg.absent
    support := RoleCfg.arr
      ["500000000000000005", "500000000000000005", "", "abc", "500000000000000006"]
    partnership := RoleCfg.absent
    founders := RoleCfg.absent }

/-- Witness for the amended C9: deduplication, membership and the
call-site snowflake filter evaluated on the mixed configuration. -/
theorem claim_C9_witness :
    (getTicketRoles wMixedCfg "support").Nodup ∧
    ("" ∈ getTicketRoles wMixedCfg "support" ↔
      ("" ∈ rawRoles wMixedCfg "support" ∧ "" ≠ "")) ∧
    ("abc" ∈ getTicketRoles wMixedCfg "support" ↔
      ("abc" ∈ rawRoles wMixedCfg "support" ∧ "abc" ≠ "")) ∧
    isValidSnowflake "500000000000000005" = true :=
  ⟨(claim_C9_amended wMixedCfg "support").1,
   (claim_C9_amended wMixedCfg "support").2.1 "",
   (claim_C9_amended wMixedCfg "support").2.1 "abc",
   (claim_C9_amended wMixedCfg "support").2.2 "500000000000000005" (by decide)⟩

/-- A stored entry carrying a channel id that conflicts with its map
key. -/
def wBadStored : StoredTicket :=
  { channelId := some "otherchan"
    userId := "u5"
    category := "support"
    createdAt := none
    closed := none
    closedAt := none
    closedBy := none
    reopenedAt := none
    reopenedBy := none
    manuallyRegistered := none
    formData := none }

/-- Counterexample to claim C10 as stated: `loadActiveTickets` backfills
`channelId` only when it is missing or empty; loading a document whose
entry under key "k1" stores channelId "otherchan" produces a reachable
registry state in which the record under key "k1" carries a different
channel id, violating the invariant. -/
theorem claim_C10_counterexample :
    ReachF (fun _ => True)
      { tickets := loadTickets [("k1", wBadStored)], perms := [], disk := none } ∧
    KeysOk (loadTickets [("k1", wBadStored)]) = false ∧
    mapGet (loadTickets [("k1", wBadStored)]) "k1" = some (loadStored "k1" wBadStored) ∧
    (loadStored "k1" wBadStored).channelId = "otherchan" := by
  exact ⟨ReachF.load _ trivial, by decide, by decide, by decide⟩

/-- Claim C10 as amended: provided every entry of the loaded persistence
document carries no conflicting channel id — it is absent, empty, or
equal to its key, which is exactly what documents produced by saving a
consistent registry look like — every reachable state satisfies the
invariant: a record stored under key k has `channelId = k`; load
backfills a missing or empty `channelId` from the map key,
create/create-with-form-data/register-ticket insert each record under
its own `channelId`, and every operation preserves the invariant;
moreover serializing any consistent registry yields a document of the
required shape, closing the save/load loop. -/
theorem claim_C10_amended (st : SysState) (h : ReachF StoredOk st) :
    KeysOk st.tickets = true ∧
    (∀ k r, mapGet st.tickets k = some r → r.channelId = k) ∧
    StoredOk (serializeMap st.tickets) := by
  have hk : KeysOk st.tickets = true := by
    induction h with
    | load doc hdoc => exact keysOk_loadTickets doc hdoc
    | button cfg st b a c now hst ih => exact keysOk_handleButton cfg st b a c now ih
    | create opts st u ty ch now fd hst ih => exact keysOk_createOp opts st u ty ch now fd ih
    | register st a ch u ty now hst ih => exact keysOk_registerOp st a ch u ty now ih
    | prune st live hst ih => exact keysOk_filter st.tickets _ ih
  exact ⟨hk, fun k r hget => keysOk_mem st.tickets hk k r hget,
    storedOk_serializeMap st.tickets hk⟩

/-- A well-formed stored entry (its key as channel id). -/
def wGoodStored : StoredTicket :=
  { channelId := some "k1"
    userId := "u5"
    category := "support"
    createdAt := none
    closed := none
    closedAt := none
    closedBy := none
    reopenedAt := none
    reopenedBy := none
    manuallyRegistered := none
    formData := none }

/-- Witness for the amended C10: the invariant evaluated on the state
loaded from a well-formed one-entry document. -/
theorem claim_C10_witness :
    KeysOk (loadTickets [("k1", wGoodStored)]) = true ∧
    (∀ k r, mapGet (loadTickets [("k1", wGoodStored)]) k = some r → r.channelId = k) ∧
    StoredOk (serializeMap (loadTickets [("k1", wGoodStored)])) := by
  have h := claim_C10_amended
    { tickets := loadTickets [("k1", wGoodStored)], perms := [], disk := none }
    (ReachF.load [("k1", wGoodStored)] (by unfold StoredOk; decide))
  exact h
